import Mathlib

/-!
Shallow embedding of the GLIM global mapping back end
(`src/glim/mapping/global_mapping.cpp` and its headers) and proofs of the
frozen claims about it.  Scalars are modelled as rationals; the external
collaborators (gtsam's iSAM2 solver, the IMU preintegration library,
`gtsam_points` registration/overlap routines and random sampling) are
modelled as explicit oracle parameters, exactly at the call boundaries the
source uses them.
-/

namespace GlimMapping

/-- 3-vector of rationals, standing in for `Eigen::Vector3d`. -/
structure Vec3 where
  x : ℚ
  y : ℚ
  z : ℚ
deriving DecidableEq, Repr

def Vec3.zero : Vec3 := ⟨0, 0, 0⟩

def Vec3.add (a b : Vec3) : Vec3 := ⟨a.x + b.x, a.y + b.y, a.z + b.z⟩

def Vec3.sub (a b : Vec3) : Vec3 := ⟨a.x - b.x, a.y - b.y, a.z - b.z⟩

def Vec3.neg (a : Vec3) : Vec3 := ⟨-a.x, -a.y, -a.z⟩

def Vec3.smul (c : ℚ) (a : Vec3) : Vec3 := ⟨c * a.x, c * a.y, c * a.z⟩

def Vec3.dot (a b : Vec3) : ℚ := a.x * b.x + a.y * b.y + a.z * b.z

/-- Squared Euclidean norm; the source compares `norm()` against a bound,
which we model as comparing squared norms against the squared bound. -/
def Vec3.sqnorm (a : Vec3) : ℚ := a.dot a

/-- Homogeneous 4-vector of rationals, standing in for `Eigen::Vector4d`. -/
structure Vec4 where
  x : ℚ
  y : ℚ
  z : ℚ
  w : ℚ
deriving DecidableEq, Repr

/-- 3x3 rational matrix (rows), standing in for `Eigen::Matrix3d`. -/
structure Mat3 where
  r1 : Vec3
  r2 : Vec3
  r3 : Vec3
deriving DecidableEq, Repr

def Mat3.id : Mat3 := ⟨⟨1, 0, 0⟩, ⟨0, 1, 0⟩, ⟨0, 0, 1⟩⟩

def Mat3.mulVec (m : Mat3) (v : Vec3) : Vec3 :=
  ⟨m.r1.dot v, m.r2.dot v, m.r3.dot v⟩

def Mat3.transpose (m : Mat3) : Mat3 :=
  ⟨⟨m.r1.x, m.r2.x, m.r3.x⟩, ⟨m.r1.y, m.r2.y, m.r3.y⟩, ⟨m.r1.z, m.r2.z, m.r3.z⟩⟩

def Mat3.mul (a b : Mat3) : Mat3 :=
  let bt := b.transpose
  ⟨⟨a.r1.dot bt.r1, a.r1.dot bt.r2, a.r1.dot bt.r3⟩,
   ⟨a.r2.dot bt.r1, a.r2.dot bt.r2, a.r2.dot bt.r3⟩,
   ⟨a.r3.dot bt.r1, a.r3.dot bt.r2, a.r3.dot bt.r3⟩⟩

def Mat3.det (m : Mat3) : ℚ :=
  m.r1.x * (m.r2.y * m.r3.z - m.r2.z * m.r3.y)
    - m.r1.y * (m.r2.x * m.r3.z - m.r2.z * m.r3.x)
    + m.r1.z * (m.r2.x * m.r3.y - m.r2.y * m.r3.x)

/-- General 3x3 inverse via the adjugate, standing in for
`Eigen::Matrix3d::inverse()` (used on `T_world_origin.linear()`).
Division by a zero determinant yields the rational 0, matching Lean's
total division; the source would produce non-finite values there. -/
def Mat3.inv (m : Mat3) : Mat3 :=
  let d := m.det
  ⟨⟨(m.r2.y * m.r3.z - m.r2.z * m.r3.y) / d,
    (m.r1.z * m.r3.y - m.r1.y * m.r3.z) / d,
    (m.r1.y * m.r2.z - m.r1.z * m.r2.y) / d⟩,
   ⟨(m.r2.z * m.r3.x - m.r2.x * m.r3.z) / d,
    (m.r1.x * m.r3.z - m.r1.z * m.r3.x) / d,
    (m.r1.z * m.r2.x - m.r1.x * m.r2.z) / d⟩,
   ⟨(m.r2.x * m.r3.y - m.r2.y * m.r3.x) / d,
    (m.r1.y * m.r3.x - m.r1.x * m.r3.y) / d,
    (m.r1.x * m.r2.y - m.r1.y * m.r2.x) / d⟩⟩

/-- Rigid-transform record standing in for `Eigen::Isometry3d`:
a linear part and a translation. -/
structure Pose where
  linear : Mat3
  trans : Vec3
deriving DecidableEq, Repr

def Pose.id : Pose := ⟨Mat3.id, Vec3.zero⟩

/-- Composition `a * b` of isometries. -/
def Pose.comp (a b : Pose) : Pose :=
  ⟨a.linear.mul b.linear, (a.linear.mulVec b.trans).add a.trans⟩

/-- `Eigen::Isometry3d::inverse()` in Isometry mode: `[Rᵀ, -Rᵀ t]`. -/
def Pose.isoInv (p : Pose) : Pose :=
  ⟨p.linear.transpose, (p.linear.transpose.mulVec p.trans).neg⟩

/-- Action of an isometry on a homogeneous 4-vector (`T * p` in Eigen):
`xyz' = R xyz + w · t`, `w' = w`. -/
def Pose.actHom (T : Pose) (p : Vec4) : Vec4 :=
  let v := T.linear.mulVec ⟨p.x, p.y, p.z⟩
  let t := Vec3.smul p.w T.trans
  ⟨v.x + t.x, v.y + t.y, v.z + t.z, p.w⟩

/-- Point cloud: a list of homogeneous points plus the `points_gpu` flag of
`gtsam_points::PointCloud` (whether a device copy exists). -/
structure Cloud where
  points : List Vec4
  onGpu : Bool
deriving DecidableEq, Repr

/-- `PointCloudGPU::clone`: same points, device copy present. -/
def Cloud.cloneGpu (c : Cloud) : Cloud := ⟨c.points, true⟩

/-- Gaussian voxel map: its resolution, the cloud that was inserted into it,
and whether it is the GPU variant. -/
structure VoxelMap where
  resolution : ℚ
  source : Cloud
  onGpu : Bool
deriving DecidableEq, Repr

def VoxelMap.default : VoxelMap := ⟨0, ⟨[], false⟩, false⟩

/-- gtsam keys used by the back end (`gtsam::symbol_shorthand::X/E/V/B`). -/
inductive GKey where
  | X (i : Nat)
  | E (i : Nat)
  | V (i : Nat)
  | B (i : Nat)
deriving DecidableEq, Repr

/-- `gtsam::Symbol::chr()` of a key. -/
def GKey.chr : GKey → Char
  | .X _ => 'x'
  | .E _ => 'e'
  | .V _ => 'v'
  | .B _ => 'b'

/-- `gtsam::Symbol::index()` of a key. -/
def GKey.index : GKey → Nat
  | .X i => i
  | .E i => i
  | .V i => i
  | .B i => i

/-- IMU bias (`gtsam::imuBias::ConstantBias`): accelerometer and gyro parts. -/
structure ImuBias where
  accel : Vec3
  gyro : Vec3
deriving DecidableEq, Repr

def ImuBias.zero : ImuBias := ⟨Vec3.zero, Vec3.zero⟩

/-- Opaque handle for a preintegrated IMU measurement
(`imu_integration->integrated_measurements()`). -/
structure PreintMeas where
  tag : Nat
deriving DecidableEq, Repr

/-- Noise models attached to factors: isotropic precision
(`noiseModel::Isotropic::Precision(dim, prec)`) or a full information
matrix (`noiseModel::Gaussian::Information(H)`, kept opaque). -/
inductive NoiseModel where
  | isotropicPrecision (dim : Nat) (precision : ℚ)
  | gaussianInformation (tag : Nat)
deriving DecidableEq, Repr

/-- Tagged factors, one constructor per factor kind the back end builds. -/
inductive Factor where
  | linearDamping (k : GKey) (dim : Nat) (scale : ℚ)
  | betweenPose (k1 k2 : GKey) (delta : Pose) (noise : NoiseModel)
  | priorPose (k : GKey) (p : Pose) (noise : NoiseModel)
  | betweenBias (k1 k2 : GKey) (delta : ImuBias) (noise : NoiseModel)
  | priorBias (k : GKey) (b : ImuBias) (noise : NoiseModel)
  | betweenVel (k1 k2 : GKey) (delta : Vec3) (noise : NoiseModel)
  | rotateVec3 (k1 k2 : GKey) (v : Vec3) (noise : NoiseModel)
  | imuFactor (e1 v1 e2 v2 b1 : GKey) (meas : PreintMeas)
  | vgicp (k1 k2 : GKey) (target : VoxelMap) (source : Cloud)
  | vgicpGpu (k1 k2 : GKey) (target : VoxelMap) (source : Cloud)
  | gicp (k1 k2 : GKey)
deriving DecidableEq, Repr

/-- `factor->keys()`. -/
def Factor.keys : Factor → List GKey
  | .linearDamping k _ _ => [k]
  | .betweenPose k1 k2 _ _ => [k1, k2]
  | .priorPose k _ _ => [k]
  | .betweenBias k1 k2 _ _ => [k1, k2]
  | .priorBias k _ _ => [k]
  | .betweenVel k1 k2 _ _ => [k1, k2]
  | .rotateVec3 k1 k2 _ _ => [k1, k2]
  | .imuFactor e1 v1 e2 v2 b1 _ => [e1, v1, e2, v2, b1]
  | .vgicp k1 k2 _ _ => [k1, k2]
  | .vgicpGpu k1 k2 _ _ => [k1, k2]
  | .gicp k1 k2 => [k1, k2]

/-- `dynamic_pointer_cast<gtsam_points::LinearDampingFactor>` test. -/
def Factor.isLinearDamping : Factor → Bool
  | .linearDamping _ _ _ => true
  | _ => false

/-- `dynamic_pointer_cast<gtsam::ImuFactor>` test. -/
def Factor.isImuFactor : Factor → Bool
  | .imuFactor _ _ _ _ _ _ => true
  | _ => false

/-- Values stored in the smoother under a key. -/
inductive GVal where
  | pose (p : Pose)
  | vel (v : Vec3)
  | bias (b : ImuBias)
deriving DecidableEq, Repr

/-- Configuration record mirroring `GlobalMappingParams`, plus the
`GTSAM_POINTS_USE_CUDA` build flag that gates the GPU code paths. -/
structure Params where
  enable_gpu : Bool
  enable_imu : Bool
  enable_between_factors : Bool
  between_registration_type : String
  registration_error_factor_type : String
  submap_voxel_resolution : ℚ
  submap_voxel_resolution_max : ℚ
  submap_voxel_resolution_dmin : ℚ
  submap_voxel_resolution_dmax : ℚ
  submap_voxelmap_levels : Nat
  submap_voxelmap_scaling_factor : ℚ
  randomsampling_rate : ℚ
  max_implicit_loop_distance : ℚ
  min_implicit_loop_overlap : ℚ
  init_pose_damping_scale : ℚ
  cuda_built : Bool

/-- One odometry estimation frame, with exactly the fields the global
mapping code reads (`EstimationFrame`). -/
structure Frame where
  stamp : ℚ
  T_world_sensor : Pose
  imu_bias : ImuBias
  v_world_imu : Vec3
deriving DecidableEq, Repr

def Frame.default : Frame := ⟨0, Pose.id, ImuBias.zero, Vec3.zero⟩

/-- Mirror of `glim::SubMap`, with the fields `GlobalMapping` reads. -/
structure SubMapM where
  id : Nat
  T_world_origin : Pose
  T_origin_endpoint_L : Pose
  T_origin_endpoint_R : Pose
  merged_keyframe : Cloud
  voxelmaps : List VoxelMap
  optim_odom_frames : List Frame
  origin_odom_frames : List Frame
deriving DecidableEq, Repr

/-- `frames.front()` (undefined behaviour on an empty vector in the source;
modelled as a default frame). -/
def framesFront (fs : List Frame) : Frame := fs.headD Frame.default

/-- `frames.back()`. -/
def framesBack (fs : List Frame) : Frame := fs.getLastD Frame.default

/-- Back-end state: the submap lists and the smoother content, plus the
`new_factors` / `new_values` member buffers of `GlobalMapping`. -/
structure GMState where
  submaps : List SubMapM
  subsampled_submaps : List Cloud
  isamFactors : List Factor
  isamValues : List (GKey × GVal)
  pendingFactors : List Factor
  pendingValues : List (GKey × GVal)
deriving DecidableEq, Repr

def GMState.empty : GMState := ⟨[], [], [], [], [], []⟩

/-- Result record standing in for `gtsam_points::ISAM2ResultExt`. -/
structure ISAM2Result where
  tag : Nat
deriving DecidableEq, Repr

/-- Default-constructed (empty) result, returned when an exception other
than an indeterminate system is swallowed. -/
def ISAM2Result.empty : ISAM2Result := ⟨0⟩

/-- Behaviour of one `isam2->update(...)` call: success with a result,
an `IndeterminantLinearSystemException` naming a nearby variable, or any
other exception. -/
inductive SolverOutcome where
  | success (r : ISAM2Result)
  | indeterminate (k : GKey)
  | otherException

/-- Oracle for the external incremental solver: what the update call does,
and the estimates `isam2->calculateEstimate<gtsam::Pose3>(X(i))` that
`update_submaps` reads afterwards. -/
structure SolverOracle where
  outcome : SolverOutcome
  estimates : Nat → Pose

/-- Outcome of an operation on a process that may call `exit`. -/
inductive Proc (α : Type) where
  | ok (a : α)
  | exited (code : Nat)
deriving DecidableEq, Repr

/-- Key rewrite appearing in the recovery branch of
`GlobalMapping::update_isam2` (lines 504-508): a `v`/`b`/`e` nearby
variable indexed `n` is rewritten to `X(n/2)`.  In the source this branch
is unreachable: the `catch` block for the indeterminate exception calls
`exit(1)` before `indeterminant_nearby_key` is assigned. -/
def rewrite_indeterminant_key (k : GKey) : GKey :=
  if k.chr = 'v' ∨ k.chr = 'b' ∨ k.chr = 'e' then GKey.X (k.index / 2) else k

/-- `GlobalMapping::update_isam2` (lines 478-534).  On success the solver
absorbs the new factors and values.  On an indeterminate linear system the
source logs and calls `exit(1)`; the damping-and-retry code below the
`exit` never runs, so no repaired graph is ever rebuilt.  Any other
exception is logged and swallowed, returning a default-constructed result
and leaving the solver state as it was. -/
def update_isam2 (o : SolverOracle) (st : GMState) (nf : List Factor)
    (nv : List (GKey × GVal)) : Proc (ISAM2Result × GMState) :=
  match o.outcome with
  | .success r =>
      .ok (r, { st with isamFactors := st.isamFactors ++ nf,
                        isamValues := st.isamValues ++ nv })
  | .indeterminate _ => .exited 1
  | .otherException => .ok (ISAM2Result.empty, st)

/-- `GlobalMapping::update_submaps`: write the solver's current estimate of
every `X(i)` back into `submaps[i]->T_world_origin`. -/
def update_submaps (est : Nat → Pose) (ss : List SubMapM) : List SubMapM :=
  ss.mapIdx fun i s => { s with T_world_origin := est i }

/-- Callback events emitted by the back end
(`GlobalMappingCallbacks::on_*`). -/
inductive Event where
  | smootherUpdate
  | smootherUpdateResult
  | updateSubmaps
deriving DecidableEq, Repr

/-- `GlobalMapping::optimize` (lines 351-365): an empty smoother update
followed by `update_submaps`, skipped entirely when the solver is empty
(`isam2->empty()`, i.e. it holds no variables). -/
def optimize (o : SolverOracle) (st : GMState) : Proc (GMState × List Event) :=
  if st.isamValues.isEmpty then .ok (st, [])
  else
    match update_isam2 o st [] [] with
    | .exited c => .exited c
    | .ok (_, st1) =>
        .ok ({ st1 with submaps := update_submaps o.estimates st1.submaps },
             [Event.smootherUpdate, Event.smootherUpdateResult, Event.updateSubmaps])

def SubMapM.default : SubMapM :=
  ⟨0, Pose.id, Pose.id, Pose.id, ⟨[], false⟩, [], [], []⟩

/-- `SubMap::origin_odom_frame()`: note the source indexes
`origin_odom_frames` by `optim_odom_frames.size() / 2`. -/
def SubMapM.origin_odom_frame (sm : SubMapM) : Frame :=
  sm.origin_odom_frames.getD (sm.optim_odom_frames.length / 2) Frame.default

/-- Oracles for the external `gtsam_points` / IMU routines the back end
calls: `median_distance`, `random_sampling` (rate and RNG folded in),
`overlap_auto`, the isolated Levenberg-Marquardt GICP refinement of
`create_between_factors` (returning the estimated delta and the
information-matrix noise built from the linearized Hessian plus ridge),
and `IMUIntegration::integrate_imu` between two stamps (returning the
number of integrated samples and the preintegrated measurement). -/
structure MapOracles where
  medianDist : Cloud → ℚ
  randomSample : Cloud → Cloud
  overlap : VoxelMap → Cloud → Pose → ℚ
  lmRefine : Cloud → Cloud → Pose → Pose × NoiseModel
  integrate : ℚ → ℚ → ImuBias → Nat × PreintMeas

/-- Adaptive voxel resolution (both `insert_submap(int, ...)` and `load`):
`p = clamp((median - dmin)/(dmax - dmin), 0, 1)`,
`base = res + p * (res_max - res)`. -/
def base_resolution (p : Params) (o : MapOracles) (cloud : Cloud) : ℚ :=
  let dist_median := o.medianDist cloud
  let pr := max 0 (min 1 ((dist_median - p.submap_voxel_resolution_dmin) /
    (p.submap_voxel_resolution_dmax - p.submap_voxel_resolution_dmin)))
  p.submap_voxel_resolution + pr * (p.submap_voxel_resolution_max - p.submap_voxel_resolution)

/-- `submap_voxelmap_levels` voxel maps at `base * scale^i`, all inserting
the given source cloud. -/
def build_voxelmaps (levels : Nat) (scaling base : ℚ) (src : Cloud) (gpu : Bool) :
    List VoxelMap :=
  (List.range levels).map fun i => ⟨base * scaling ^ i, src, gpu⟩

/-- `GlobalMapping::insert_submap(int, const SubMap::Ptr&)`
(lines 229-278): clear the voxel maps, pick the adaptive resolution,
subsample the merged keyframe when `randomsampling_rate <= 0.99`, then
build the voxel maps — on the GPU path (CUDA build and `enable_gpu`) from
the (cloned) full merged keyframe, otherwise on the CPU path from the
subsampled cloud.  Returns the updated submap and the subsampled cloud
that is pushed into `subsampled_submaps`. -/
def insert_submap_voxelize (p : Params) (o : MapOracles) (sm : SubMapM) :
    SubMapM × Cloud :=
  let base := base_resolution p o sm.merged_keyframe
  let subsampled : Cloud :=
    if p.randomsampling_rate > 99/100 then sm.merged_keyframe
    else o.randomSample sm.merged_keyframe
  if p.cuda_built && p.enable_gpu then
    let merged := if sm.merged_keyframe.onGpu then sm.merged_keyframe
                  else sm.merged_keyframe.cloneGpu
    let sub2 := if p.randomsampling_rate > 99/100 then merged else subsampled.cloneGpu
    ({ sm with merged_keyframe := merged,
               voxelmaps := build_voxelmaps p.submap_voxelmap_levels
                 p.submap_voxelmap_scaling_factor base merged true }, sub2)
  else
    ({ sm with voxelmaps := build_voxelmaps p.submap_voxelmap_levels
                 p.submap_voxelmap_scaling_factor base subsampled false }, subsampled)

/-- Push the voxelized submap and its subsampled cloud into the back-end
lists (tail of `insert_submap(int, ...)`). -/
def insert_submap_push (p : Params) (o : MapOracles) (st : GMState) (sm : SubMapM) :
    GMState :=
  let (sm2, sub) := insert_submap_voxelize p o sm
  { st with submaps := st.submaps ++ [sm2],
            subsampled_submaps := st.subsampled_submaps ++ [sub] }

/-- `GlobalMapping::create_between_factors` (lines 367-416). -/
def create_between_factors (p : Params) (o : MapOracles) (submaps : List SubMapM)
    (current : Nat) : List Factor :=
  if current = 0 ∨ ¬p.enable_between_factors then []
  else
    let last := current - 1
    let smLast := submaps.getD last SubMapM.default
    let smCur := submaps.getD current SubMapM.default
    let init_delta := (Pose.isoInv smLast.T_world_origin).comp smCur.T_world_origin
    if p.between_registration_type = "NONE" then
      [Factor.betweenPose (GKey.X last) (GKey.X current) init_delta
        (NoiseModel.isotropicPrecision 6 1000000)]
    else
      let (estimated_delta, noise) :=
        o.lmRefine smLast.merged_keyframe smCur.merged_keyframe init_delta
      [Factor.betweenPose (GKey.X last) (GKey.X current) estimated_delta noise]

/-- One iteration of the loop in `create_matching_cost_factors`
(lines 427-459), folding the accumulated factors and `previous_overlap`.
The translation-distance gate compares squared norms against the squared
bound, which matches the source for a nonnegative configured distance. -/
def matching_cost_step (p : Params) (o : MapOracles) (submaps : List SubMapM)
    (subsampled : List Cloud) (current : Nat) (acc : List Factor × ℚ) (i : Nat) :
    List Factor × ℚ :=
  let cur := submaps.getLastD SubMapM.default
  let smi := submaps.getD i SubMapM.default
  let distSq := (smi.T_world_origin.trans.sub cur.T_world_origin.trans).sqnorm
  if distSq > p.max_implicit_loop_distance ^ 2 then acc
  else
    let delta := (Pose.isoInv smi.T_world_origin).comp cur.T_world_origin
    let ov := o.overlap (smi.voxelmaps.getLastD VoxelMap.default) cur.merged_keyframe delta
    let prev := if i = current - 1 then ov else acc.2
    if ov < p.min_implicit_loop_overlap then (acc.1, prev)
    else
      let newf : List Factor :=
        if p.registration_error_factor_type = "VGICP" then
          smi.voxelmaps.map fun vm =>
            Factor.vgicp (GKey.X i) (GKey.X current) vm (subsampled.getD current ⟨[], false⟩)
        else if p.cuda_built ∧ p.registration_error_factor_type = "VGICP_GPU" then
          smi.voxelmaps.map fun vm =>
            Factor.vgicpGpu (GKey.X i) (GKey.X current) vm (subsampled.getD current ⟨[], false⟩)
        else []
      (acc.1 ++ newf, prev)

/-- The `previous_overlap` value left by the loop of
`create_matching_cost_factors`: the overlap computed at `i = current - 1`
if its distance gate passed, else the initial `0.0`. -/
def previous_overlap_value (p : Params) (o : MapOracles) (submaps : List SubMapM)
    (subsampled : List Cloud) (current : Nat) : ℚ :=
  ((List.range current).foldl (matching_cost_step p o submaps subsampled current) ([], 0)).2

/-- `GlobalMapping::create_matching_cost_factors` (lines 418-470): the
multi-resolution VGICP chain over all previous submaps within the distance
and overlap gates, followed by the safety net: when the overlap with the
immediate predecessor is below `max(0.25, min_implicit_loop_overlap)`, a
between factor `X(last) -> X(current)` at the current relative pose with
isotropic precision 1e6 on 6 DoF. -/
def create_matching_cost_factors (p : Params) (o : MapOracles)
    (submaps : List SubMapM) (subsampled : List Cloud) (current : Nat) : List Factor :=
  if current = 0 then []
  else
    let loopOut := (List.range current).foldl
      (matching_cost_step p o submaps subsampled current) ([], 0)
    if loopOut.2 < max (1/4) p.min_implicit_loop_overlap then
      let last := current - 1
      let smLast := submaps.getD last SubMapM.default
      let smCur := submaps.getD current SubMapM.default
      let init_delta := (Pose.isoInv smLast.T_world_origin).comp smCur.T_world_origin
      loopOut.1 ++ [Factor.betweenPose (GKey.X last) (GKey.X current) init_delta
        (NoiseModel.isotropicPrecision 6 1000000)]
    else loopOut.1

/-- Look a pose value up in a key-value list (first match). -/
def lookupPose (kvs : List (GKey × GVal)) (k : GKey) : Option Pose :=
  match kvs.lookup k with
  | some (GVal.pose T) => some T
  | _ => none

/-- The IMU preintegration call between two consecutive submaps
(`insert_submap` lines 200-205): integrate over `[stampL, stampR]` with
the left bias, returning the number of samples integrated and the
preintegrated measurement. -/
def integrate_between (o : MapOracles) (submaps : List SubMapM) (current : Nat)
    (sm : SubMapM) : Nat × PreintMeas :=
  o.integrate
    (framesBack (submaps.getD (current - 1) SubMapM.default).optim_odom_frames).stamp
    (framesFront sm.optim_odom_frames).stamp
    (framesFront sm.optim_odom_frames).imu_bias

/-- The IMU block of `GlobalMapping::insert_submap` (lines 165-216):
endpoint variables `E/V/B`, their attachment factors to `X(current)`, and
between consecutive submaps either the preintegrated `ImuFactor` or, when
fewer than 2 samples were integrated, the zero-velocity between factor on
`V` with precision 1.0.  Returns (factors, values) in source order. -/
def imu_chain (p : Params) (o : MapOracles) (submaps : List SubMapM)
    (current : Nat) (sm : SubMapM) : List Factor × List (GKey × GVal) :=
  if ¬p.enable_imu then ([], [])
  else
    let imu_biasL := (framesFront sm.optim_odom_frames).imu_bias
    let imu_biasR := (framesBack sm.optim_odom_frames).imu_bias
    let rotInv := Mat3.inv sm.T_world_origin.linear
    let v_origin_imuL := rotInv.mulVec (framesFront sm.optim_odom_frames).v_world_imu
    let v_origin_imuR := rotInv.mulVec (framesBack sm.optim_odom_frames).v_world_imu
    let prior_noise3 := NoiseModel.isotropicPrecision 3 1000000
    let prior_noise6 := NoiseModel.isotropicPrecision 6 1000000
    let leftVals : List (GKey × GVal) :=
      if current > 0 then
        [(GKey.E (current * 2), GVal.pose (sm.T_world_origin.comp sm.T_origin_endpoint_L)),
         (GKey.V (current * 2), GVal.vel (sm.T_world_origin.linear.mulVec v_origin_imuL)),
         (GKey.B (current * 2), GVal.bias imu_biasL)]
      else []
    let leftFacs : List Factor :=
      if current > 0 then
        [Factor.betweenPose (GKey.X current) (GKey.E (current * 2))
           sm.T_origin_endpoint_L prior_noise6,
         Factor.rotateVec3 (GKey.X current) (GKey.V (current * 2)) v_origin_imuL prior_noise3,
         Factor.priorBias (GKey.B (current * 2)) imu_biasL prior_noise6,
         Factor.betweenBias (GKey.B (current * 2)) (GKey.B (current * 2 + 1))
           ImuBias.zero prior_noise6]
      else []
    let rightVals : List (GKey × GVal) :=
      [(GKey.E (current * 2 + 1), GVal.pose (sm.T_world_origin.comp sm.T_origin_endpoint_R)),
       (GKey.V (current * 2 + 1), GVal.vel (sm.T_world_origin.linear.mulVec v_origin_imuR)),
       (GKey.B (current * 2 + 1), GVal.bias imu_biasR)]
    let rightFacs : List Factor :=
      [Factor.betweenPose (GKey.X current) (GKey.E (current * 2 + 1))
         sm.T_origin_endpoint_R prior_noise6,
       Factor.rotateVec3 (GKey.X current) (GKey.V (current * 2 + 1)) v_origin_imuR prior_noise3,
       Factor.priorBias (GKey.B (current * 2 + 1)) imu_biasR prior_noise6]
    let gapFacs : List Factor :=
      if current ≠ 0 then
        let last := current - 1
        let integ := integrate_between o submaps current sm
        if integ.1 < 2 then
          [Factor.betweenVel (GKey.V (last * 2 + 1)) (GKey.V (current * 2)) Vec3.zero
            (NoiseModel.isotropicPrecision 3 1)]
        else
          [Factor.imuFactor (GKey.E (last * 2 + 1)) (GKey.V (last * 2 + 1))
            (GKey.E (current * 2)) (GKey.V (current * 2)) (GKey.B (last * 2 + 1)) integ.2]
      else []
    (leftFacs ++ rightFacs ++ gapFacs, leftVals ++ rightVals)

/-- The pre-update part of `GlobalMapping::insert_submap(const
SubMap::Ptr&)` (lines 124-216): voxelize and append the submap, predict
`X(current)` by chaining the previous pose with the odometry delta,
mirror it into the submap, and build the damping / between /
matching-cost / IMU factors and values into the pending buffers. -/
def insert_submap_prepare (p : Params) (o : MapOracles)
    (st : GMState) (submap : SubMapM) : GMState :=
  let current := st.submaps.length
  let last := current - 1
  let st1 := insert_submap_push p o st submap
  let current_T_world_submap :=
    if current ≠ 0 then
      let last_T :=
        match lookupPose st1.isamValues (GKey.X last) with
        | some T => T
        | none => (lookupPose st1.pendingValues (GKey.X last)).getD Pose.id
      let smLast := st1.submaps.getD last SubMapM.default
      let smCur := st1.submaps.getD current SubMapM.default
      let T_origin0_endpointR0 := smLast.T_origin_endpoint_R
      let T_origin1_endpointL1 := smCur.T_origin_endpoint_L
      let T_endpointR0_endpointL1 :=
        (Pose.isoInv (framesBack smLast.origin_odom_frames).T_world_sensor).comp
          (framesFront smCur.origin_odom_frames).T_world_sensor
      let T_origin0_origin1 :=
        (T_origin0_endpointR0.comp T_endpointR0_endpointL1).comp
          (Pose.isoInv T_origin1_endpointL1)
      last_T.comp T_origin0_origin1
    else submap.T_world_origin
  let sm2 := { (st1.submaps.getD current SubMapM.default) with
               T_world_origin := current_T_world_submap }
  let st2 := { st1 with submaps := st1.submaps.set current sm2 }
  let chainFactors : List Factor :=
    if current = 0 then
      [Factor.linearDamping (GKey.X 0) 6 p.init_pose_damping_scale]
    else
      create_between_factors p o st2.submaps current ++
        create_matching_cost_factors p o st2.submaps st2.subsampled_submaps current
  let imuOut := imu_chain p o st2.submaps current sm2
  { st2 with
    pendingValues := (st2.pendingValues ++
      [(GKey.X current, GVal.pose current_T_world_submap)]) ++ imuOut.2
    pendingFactors := (st2.pendingFactors ++ chainFactors) ++ imuOut.1 }

/-- `GlobalMapping::insert_submap(const SubMap::Ptr&)` (lines 124-227):
the pending-buffer preparation above, one smoother update
(`update_isam2`, lines 218-219), then buffer reset and submap pose
refresh (lines 222-226). -/
def insert_submap (p : Params) (o : MapOracles) (so : SolverOracle)
    (st : GMState) (submap : SubMapM) : Proc (GMState × ISAM2Result) :=
  let st3 := insert_submap_prepare p o st submap
  match update_isam2 so st3 st3.pendingFactors st3.pendingValues with
  | .exited c => .exited c
  | .ok (r, st4) =>
      .ok ({ st4 with pendingFactors := []
                      pendingValues := []
                      submaps := update_submaps so.estimates st4.submaps }, r)

/-- The dedup scan of `find_overlapping_submaps` (lines 286-299): the
ordered index pairs of every 2-key factor whose both keys are `X`
variables. -/
def overlap_pairs_existing (factors : List Factor) : List (Nat × Nat) :=
  factors.filterMap fun f =>
    match f.keys with
    | [k1, k2] =>
        if k1.chr = 'x' ∧ k2.chr = 'x' then some (k1.index, k2.index) else none
    | _ => none

/-- Factors produced by `find_overlapping_submaps` for one pair `(i, j)`
(lines 304-337): skip when the pair is already connected, beyond the
distance gate (squared-norm comparison), or below the overlap gate;
otherwise one VGICP factor per voxel-map level, GPU variant when the
voxel map and the source cloud both live on the device. -/
def overlap_pair_factors (p : Params) (o : MapOracles) (submaps : List SubMapM)
    (subsampled : List Cloud) (minOverlap : ℚ) (existing : List (Nat × Nat))
    (i j : Nat) : List Factor :=
  if (i, j) ∈ existing then []
  else
    let smi := submaps.getD i SubMapM.default
    let smj := submaps.getD j SubMapM.default
    let delta := (Pose.isoInv smi.T_world_origin).comp smj.T_world_origin
    if delta.trans.sqnorm > p.max_implicit_loop_distance ^ 2 then []
    else
      let tgt := smi.voxelmaps.getLastD VoxelMap.default
      let src := subsampled.getD j ⟨[], false⟩
      if o.overlap tgt src delta < minOverlap then []
      else if p.cuda_built ∧ tgt.onGpu ∧ src.onGpu then
        smi.voxelmaps.map fun vm => Factor.vgicpGpu (GKey.X i) (GKey.X j) vm src
      else
        smi.voxelmaps.map fun vm => Factor.vgicp (GKey.X i) (GKey.X j) vm src

/-- All new factors collected by the double loop of
`find_overlapping_submaps`. -/
def find_overlapping_new_factors (p : Params) (o : MapOracles)
    (submaps : List SubMapM) (subsampled : List Cloud) (minOverlap : ℚ)
    (existing : List (Nat × Nat)) : List Factor :=
  (List.range submaps.length).flatMap fun i =>
    (List.range submaps.length).flatMap fun j =>
      if i < j then overlap_pair_factors p o submaps subsampled minOverlap existing i j
      else []

/-- `GlobalMapping::find_overlapping_submaps` (lines 280-349): return
immediately on an empty submap list; otherwise scan existing factors,
collect the new VGICP factors, run one smoother update with them and
refresh submap poses.  Also returns the list of factors it added and the
emitted callback events. -/
def find_overlapping_submaps (p : Params) (o : MapOracles) (so : SolverOracle)
    (minOverlap : ℚ) (st : GMState) : Proc (GMState × List Factor × List Event) :=
  if st.submaps.isEmpty then .ok (st, [], [])
  else
    let existing := overlap_pairs_existing st.isamFactors
    let nf := find_overlapping_new_factors p o st.submaps st.subsampled_submaps
      minOverlap existing
    match update_isam2 so st nf [] with
    | .exited c => .exited c
    | .ok (_, st1) =>
        .ok ({ st1 with submaps := update_submaps so.estimates st1.submaps }, nf,
             [Event.smootherUpdate, Event.smootherUpdateResult, Event.updateSubmaps])

/-- `GlobalMapping::export_points` (lines 648-665): concatenate every
submap's merged keyframe transformed by its current `T_world_origin`. -/
def export_points (submaps : List SubMapM) : List Vec4 :=
  submaps.flatMap fun sm => sm.merged_keyframe.points.map sm.T_world_origin.actHom

/-- Whether some factor of the graph mentions both keys
(`connectivity_map[k1].count(k2)` in `recover_graph`, lines 1530-1547:
the map holds, for every key of every factor, all co-keys of that factor,
including the key itself). -/
def connected (graph : List Factor) (k1 k2 : GKey) : Bool :=
  graph.any fun f => f.keys.contains k1 && f.keys.contains k2

/-- The `prior_exists` scan of `recover_graph` (lines 1544-1546): some
unary factor on exactly `X(0)` that is a `LinearDampingFactor`. -/
def x0_prior_exists (graph : List Factor) : Bool :=
  graph.any fun f => f.keys = [GKey.X 0] && f.isLinearDamping

/-- The `enable_imu` detection of `recover_graph` (lines 1519-1526):
any `e`/`v`/`b` value, or any `ImuFactor` in the graph. -/
def recover_enable_imu (graph : List Factor) (values : List (GKey × GVal)) : Bool :=
  values.any (fun kv => kv.1.chr = 'e' ∨ kv.1.chr = 'v' ∨ kv.1.chr = 'b') ||
    graph.any Factor.isImuFactor

/-- The body of the per-submap repair loop of `recover_graph`
(lines 1560-1641) for index `i`: missing `X(i)` value, missing
`X(i) -> X(i+1)` edge, and, on an IMU graph, the missing endpoint values
and attachment factors.  Returns (patch factors, patch values) for this
index in source order. -/
def recover_submap_patch_factors (submaps : List SubMapM) (graph : List Factor)
    (enable_imu : Bool) (i : Nat) : List Factor :=
  let sm := submaps.getD i SubMapM.default
  let n := submaps.length
  let prior_noise3 := NoiseModel.isotropicPrecision 3 1000000
  let prior_noise6 := NoiseModel.isotropicPrecision 6 1000000
  let xFacs : List Factor :=
    if ¬connected graph (GKey.X i) (GKey.X (i + 1)) ∧ i ≠ n - 1 then
      let smNext := submaps.getD (i + 1) SubMapM.default
      let delta := (Pose.isoInv sm.origin_odom_frame.T_world_sensor).comp
        smNext.origin_odom_frame.T_world_sensor
      [Factor.betweenPose (GKey.X i) (GKey.X (i + 1)) delta prior_noise6]
    else []
  let rotInv := Mat3.inv sm.T_world_origin.linear
  let imu_biasL := (framesFront sm.optim_odom_frames).imu_bias
  let imu_biasR := (framesBack sm.optim_odom_frames).imu_bias
  let v_origin_imuL := rotInv.mulVec (framesFront sm.optim_odom_frames).v_world_imu
  let v_origin_imuR := rotInv.mulVec (framesBack sm.optim_odom_frames).v_world_imu
  let leftFacs : List Factor :=
    if i ≠ 0 then
      (if ¬connected graph (GKey.X i) (GKey.E (i * 2)) then
        [Factor.betweenPose (GKey.X i) (GKey.E (i * 2)) sm.T_origin_endpoint_L
          prior_noise6] else []) ++
      (if ¬connected graph (GKey.X i) (GKey.V (i * 2)) then
        [Factor.rotateVec3 (GKey.X i) (GKey.V (i * 2)) v_origin_imuL prior_noise3]
       else []) ++
      (if ¬connected graph (GKey.B (i * 2)) (GKey.B (i * 2)) then
        [Factor.priorBias (GKey.B (i * 2)) imu_biasL prior_noise6] else []) ++
      (if ¬connected graph (GKey.B (i * 2)) (GKey.B (i * 2 + 1)) then
        [Factor.betweenBias (GKey.B (i * 2)) (GKey.B (i * 2 + 1)) ImuBias.zero
          prior_noise6] else [])
    else []
  let rightFacs : List Factor :=
    (if ¬connected graph (GKey.X i) (GKey.E (i * 2 + 1)) then
      [Factor.betweenPose (GKey.X i) (GKey.E (i * 2 + 1)) sm.T_origin_endpoint_R
        prior_noise6] else []) ++
    (if ¬connected graph (GKey.X i) (GKey.V (i * 2 + 1)) then
      [Factor.rotateVec3 (GKey.X i) (GKey.V (i * 2 + 1)) v_origin_imuR prior_noise3]
     else []) ++
    (if ¬connected graph (GKey.B (i * 2 + 1)) (GKey.B (i * 2 + 1)) then
      [Factor.priorBias (GKey.B (i * 2 + 1)) imu_biasR prior_noise6] else [])
  xFacs ++ (if enable_imu then leftFacs ++ rightFacs else [])

def recover_submap_patch_values (submaps : List SubMapM)
    (values : List (GKey × GVal)) (enable_imu : Bool) (i : Nat) :
    List (GKey × GVal) :=
  let sm := submaps.getD i SubMapM.default
  let xVals : List (GKey × GVal) :=
    if (values.lookup (GKey.X i)).isNone then
      [(GKey.X i, GVal.pose sm.T_world_origin)] else []
  let rotInv := Mat3.inv sm.T_world_origin.linear
  let imu_biasL := (framesFront sm.optim_odom_frames).imu_bias
  let imu_biasR := (framesBack sm.optim_odom_frames).imu_bias
  let v_origin_imuL := rotInv.mulVec (framesFront sm.optim_odom_frames).v_world_imu
  let v_origin_imuR := rotInv.mulVec (framesBack sm.optim_odom_frames).v_world_imu
  let leftVals : List (GKey × GVal) :=
    if i ≠ 0 then
      (if (values.lookup (GKey.E (i * 2))).isNone then
        [(GKey.E (i * 2), GVal.pose (sm.T_world_origin.comp sm.T_origin_endpoint_L))]
       else []) ++
      (if (values.lookup (GKey.V (i * 2))).isNone then
        [(GKey.V (i * 2), GVal.vel (sm.T_world_origin.linear.mulVec v_origin_imuL))]
       else []) ++
      (if (values.lookup (GKey.B (i * 2))).isNone then
        [(GKey.B (i * 2), GVal.bias imu_biasL)] else [])
    else []
  let rightVals : List (GKey × GVal) :=
    (if (values.lookup (GKey.E (i * 2 + 1))).isNone then
      [(GKey.E (i * 2 + 1), GVal.pose (sm.T_world_origin.comp sm.T_origin_endpoint_R))]
     else []) ++
    (if (values.lookup (GKey.V (i * 2 + 1))).isNone then
      [(GKey.V (i * 2 + 1), GVal.vel (sm.T_world_origin.linear.mulVec v_origin_imuR))]
     else []) ++
    (if (values.lookup (GKey.B (i * 2 + 1))).isNone then
      [(GKey.B (i * 2 + 1), GVal.bias imu_biasR)] else [])
  xVals ++ (if enable_imu then leftVals ++ rightVals else [])

/-- `GlobalMapping::recover_graph(graph, values)` (lines 1517-1646).
Returns the `(patch_factors, patch_values)` pair built in the local
`new_factors` / `new_values`, plus the factors the function appends to the
back end's member `new_factors` buffer: the missing-`X(0)`-prior damping
factor is written through the member pointer (line 1551), which at that
point still refers to the member buffer because the local `new_factors`
is only declared later (line 1558). -/
def recover_graph (p : Params) (submaps : List SubMapM) (graph : List Factor)
    (values : List (GKey × GVal)) :
    (List Factor × List (GKey × GVal)) × List Factor :=
  let enable_imu := recover_enable_imu graph values
  let memberAppend : List Factor :=
    if ¬x0_prior_exists graph then
      [Factor.linearDamping (GKey.X 0) 6 p.init_pose_damping_scale]
    else []
  (((List.range submaps.length).flatMap
      (recover_submap_patch_factors submaps graph enable_imu),
    (List.range submaps.length).flatMap
      (recover_submap_patch_values submaps values enable_imu)), memberAppend)

/-- Kind of exception thrown by `gtsam::deserializeFromBinaryFile`:
`boost::archive::archive_exception` has its own catch handler in `load`
(which does not schedule recovery), any other `std::exception` falls to
the second handler (which does). -/
inductive DeserError where
  | archive
  | other
deriving DecidableEq, Repr

/-- Inputs of `GlobalMapping::load`, abstracting the filesystem: the parsed
`graph.txt` header and matching-cost lines (`none` = the file could not be
opened), the per-id `SubMap::load` results, and the outcomes of the two
binary deserializations.  A deserialized factor may be a null pointer,
hence `Option Factor`. -/
structure LoadInput where
  header : Option (Nat × Nat × Nat)
  matching_lines : List (String × Nat × Nat)
  submapLoad : Nat → Option SubMapM
  graphDeser : Except DeserError (List (Option Factor))
  valuesDeser : Except DeserError (List (GKey × GVal))

/-- Outcome of the guarded `deserializeFromBinaryFile` of `graph.bin`
(lines 1430-1440): the deserialized list and whether `needs_recover` was
set.  An archive exception is caught by its own handler, which only logs;
only the generic `std::exception` handler sets `needs_recover`. -/
def deser_graph (e : Except DeserError (List (Option Factor))) :
    List (Option Factor) × Bool :=
  match e with
  | .ok g => (g, false)
  | .error .archive => ([], false)
  | .error .other => ([], true)

/-- Outcome of the guarded deserialization of `values.bin`
(lines 1442-1452), same handler structure. -/
def deser_values (e : Except DeserError (List (GKey × GVal))) :
    List (GKey × GVal) × Bool :=
  match e with
  | .ok v => (v, false)
  | .error .archive => ([], false)
  | .error .other => ([], true)

/-- `gtsam::Values::insert_or_assign` folded over a list of updates. -/
def insert_or_assign (base upd : List (GKey × GVal)) : List (GKey × GVal) :=
  upd.foldl (fun acc kv =>
    if acc.any (fun e => e.1 = kv.1) then
      acc.map fun e => if e.1 = kv.1 then kv else e
    else acc ++ [kv]) base

/-- Per-submap work of the load loop (lines 1377-1424): adaptive
resolution, subsampling, and voxel-map rebuild — on load BOTH paths insert
the subsampled cloud; with `enable_gpu` set but no CUDA build the voxel
maps are left empty (only a warning is logged). -/
def load_one_submap (p : Params) (o : MapOracles) (sm : SubMapM) : SubMapM × Cloud :=
  let base := base_resolution p o sm.merged_keyframe
  let subsampled : Cloud :=
    if p.randomsampling_rate > 99/100 then sm.merged_keyframe
    else o.randomSample sm.merged_keyframe
  if p.enable_gpu then
    if p.cuda_built then
      let sub2 := subsampled.cloneGpu
      ({ sm with voxelmaps := build_voxelmaps p.submap_voxelmap_levels
                   p.submap_voxelmap_scaling_factor base sub2 true }, sub2)
    else ({ sm with voxelmaps := [] }, subsampled)
  else
    ({ sm with voxelmaps := build_voxelmaps p.submap_voxelmap_levels
                 p.submap_voxelmap_scaling_factor base subsampled false }, subsampled)

/-- The submap-loading loop of `load`: ids `0 .. n-1`, failing the whole
load when any `SubMap::load` returns null. -/
def loadSubmaps (p : Params) (o : MapOracles) (f : Nat → Option SubMapM) :
    Nat → Option (List SubMapM × List Cloud)
  | 0 => some ([], [])
  | n + 1 =>
    match loadSubmaps p o f n with
    | none => none
    | some (ss, cs) =>
      match f n with
      | none => none
      | some sm =>
        let out := load_one_submap p o sm
        some (ss ++ [out.1], cs ++ [out.2])

/-- Matching-cost factor recreation in `load` (lines 1455-1481): per line
`matching_cost <type> <i> <j>`, one VGICP factor per voxel-map level of
submap `i` (GPU variant when `enable_gpu` and built with CUDA; nothing
but a warning when `enable_gpu` without CUDA, or for an unsupported
type). -/
def recreate_matching_factors (p : Params) (submaps : List SubMapM)
    (subsampled : List Cloud) (entries : List (String × Nat × Nat)) : List Factor :=
  entries.flatMap fun ln =>
    let type := ln.1
    let first := ln.2.1
    let second := ln.2.2
    if type = "vgicp" ∨ type = "vgicp_gpu" then
      if p.enable_gpu then
        if p.cuda_built then
          (submaps.getD first SubMapM.default).voxelmaps.map fun vm =>
            Factor.vgicpGpu (GKey.X first) (GKey.X second) vm
              (subsampled.getD second ⟨[], false⟩)
        else []
      else
        (submaps.getD first SubMapM.default).voxelmaps.map fun vm =>
          Factor.vgicp (GKey.X first) (GKey.X second) vm
            (subsampled.getD second ⟨[], false⟩)
    else []

/-- Result of a completed (`return true`) load: the new back-end state and
the artifacts of the final update, plus whether the repair pass ran. -/
structure LoadResult where
  state : GMState
  recoverRan : Bool
  finalGraph : List Factor
  finalValues : List (GKey × GVal)

/-- `GlobalMapping::load` (lines 1354-1509).  Returns `.ok none` where the
source returns `false` (unopenable `graph.txt`, failed submap load);
otherwise replaces the submap lists, deserializes graph and values
(`needs_recover` is set only by the non-archive exception handlers),
recreates matching-cost factors, drops null factors (setting
`needs_recover` when any were dropped), runs the repair pass when needed —
folding its local patch into the final update and its `X(0)` damping
factor into the member pending buffer — then runs one solver update and
returns `true`. -/
def load (p : Params) (o : MapOracles) (so : SolverOracle) (st : GMState)
    (input : LoadInput) : Proc (Option LoadResult) :=
  match input.header with
  | none => .ok none
  | some (num_submaps, _, _) =>
    match loadSubmaps p o input.submapLoad num_submaps with
    | none => .ok none
    | some (submaps, subsampled) =>
      let graphOut := deser_graph input.graphDeser
      let valuesOut := deser_values input.valuesDeser
      let values := valuesOut.1
      let graph1 : List (Option Factor) :=
        graphOut.1 ++ (recreate_matching_factors p submaps subsampled
          input.matching_lines).map some
      let graph2 : List Factor := graph1.filterMap id
      let needs_recover : Bool :=
        graphOut.2 || valuesOut.2 || decide (graph2.length ≠ graph1.length)
      let recovered :=
        if needs_recover then recover_graph p submaps graph2 values
        else (([], []), [])
      let finalGraph := graph2 ++ recovered.1.1
      let finalValues := insert_or_assign values recovered.1.2
      let st1 := { st with submaps := submaps
                           subsampled_submaps := subsampled
                           pendingFactors := st.pendingFactors ++ recovered.2 }
      match update_isam2 so st1 finalGraph finalValues with
      | .exited c => .exited c
      | .ok (_, st2) =>
          let finalState := { st2 with submaps := update_submaps so.estimates st2.submaps }
          .ok (some { state := finalState
                      recoverRan := needs_recover
                      finalGraph := finalGraph
                      finalValues := finalValues })

/-- A sequence of `insert_submap` calls into the back end, each with its
own solver-update behaviour. -/
def insert_submap_seq (p : Params) (o : MapOracles) :
    GMState → List (SubMapM × SolverOracle) → Proc GMState
  | st, [] => .ok st
  | st, step :: rest =>
    match insert_submap p o step.2 st step.1 with
    | .exited c => .exited c
    | .ok (st1, _) => insert_submap_seq p o st1 rest

/-- The keys of the values one `insert_submap` call inserts into the
smoother when the back end holds `current` submaps: `X(current)`, plus,
with IMU enabled, the endpoint variables (left endpoint only when
`current > 0`). -/
def inserted_value_keys (imu : Bool) (current : Nat) : List GKey :=
  GKey.X current ::
    (if imu then
      (if 0 < current then
        [GKey.E (current * 2), GKey.V (current * 2), GKey.B (current * 2)] else []) ++
      [GKey.E (current * 2 + 1), GKey.V (current * 2 + 1), GKey.B (current * 2 + 1)]
     else [])

/-- Keys inserted by `n` consecutive insertions starting at index
`start`. -/
def inserted_keys_range (imu : Bool) (start : Nat) : Nat → List GKey
  | 0 => []
  | n + 1 => inserted_keys_range imu start n ++ inserted_value_keys imu (start + n)

/-- Projection observing the factors a completed
`find_overlapping_submaps` run added. -/
def procNewFactors : Proc (GMState × List Factor × List Event) → Option (List Factor)
  | .ok (_, nf, _) => some nf
  | .exited _ => none

/-! Concrete sample inputs used by witnesses and counterexamples. -/

/-- Default configuration of `GlobalMappingParams` (CPU build). -/
def sampleParams : Params :=
  { enable_gpu := false
    enable_imu := true
    enable_between_factors := false
    between_registration_type := "GICP"
    registration_error_factor_type := "VGICP"
    submap_voxel_resolution := 1
    submap_voxel_resolution_max := 1
    submap_voxel_resolution_dmin := 5
    submap_voxel_resolution_dmax := 20
    submap_voxelmap_levels := 2
    submap_voxelmap_scaling_factor := 2
    randomsampling_rate := 1
    max_implicit_loop_distance := 100
    min_implicit_loop_overlap := 1/10
    init_pose_damping_scale := 10000000000
    cuda_built := false }

/-- Sample external-routine oracles: subsampling keeps the first point,
every overlap is full, preintegration sees 5 samples. -/
def sampleOracles : MapOracles :=
  { medianDist := fun _ => 10
    randomSample := fun c => ⟨c.points.take 1, c.onGpu⟩
    overlap := fun _ _ _ => 1
    lmRefine := fun _ _ d => (d, NoiseModel.gaussianInformation 0)
    integrate := fun _ _ _ => (5, ⟨1⟩) }

/-- A solver oracle whose update succeeds and whose estimates are all the
identity pose. -/
def sampleSolver : SolverOracle :=
  { outcome := SolverOutcome.success ⟨1⟩
    estimates := fun _ => Pose.id }

/-- A solver oracle raising an indeterminate linear system at `V(3)`. -/
def indetSolver : SolverOracle :=
  { outcome := SolverOutcome.indeterminate (GKey.V 3)
    estimates := fun _ => Pose.id }

/-- A state whose solver holds one variable (so `optimize` does not take
the empty early return). -/
def oneValState : GMState :=
  { GMState.empty with isamValues := [(GKey.X 0, GVal.pose Pose.id)] }

/-- Subsampling enabled (rate 1/2) on the CPU path. -/
def cex2Params : Params := { sampleParams with randomsampling_rate := 1/2 }

/-- A two-point merged keyframe. -/
def cex2Cloud : Cloud := ⟨[⟨0, 0, 0, 1⟩, ⟨1, 0, 0, 1⟩], false⟩

def cex2Submap : SubMapM := { SubMapM.default with merged_keyframe := cex2Cloud }

/-- A pose at translation `t` with identity rotation. -/
def poseAt (x y z : ℚ) : Pose := ⟨Mat3.id, ⟨x, y, z⟩⟩

/-- Two submaps 300 apart: the predecessor fails the distance gate, so
`previous_overlap` stays 0. -/
def w3Submaps : List SubMapM :=
  [{ SubMapM.default with voxelmaps := [VoxelMap.default] },
   { SubMapM.default with id := 1, T_world_origin := poseAt 300 0 0 }]

/-- Tight distance gate used by the overlap-search counterexample. -/
def cex5Params : Params := { sampleParams with max_implicit_loop_distance := 1 }

/-- Estimates that move submap 1 from translation 10 to translation 1/2,
re-opening the distance gate between the two calls. -/
def cex5Solver : SolverOracle :=
  { outcome := SolverOutcome.success ⟨1⟩
    estimates := fun i => if i = 0 then Pose.id else poseAt (1/2) 0 0 }

/-- Two submaps, initially 10 apart (beyond the gate of 1). -/
def cex5State : GMState :=
  { GMState.empty with
    submaps := [{ SubMapM.default with voxelmaps := [VoxelMap.default] },
                { SubMapM.default with id := 1, T_world_origin := poseAt 10 0 0 }]
    subsampled_submaps := [⟨[], false⟩, ⟨[], false⟩]
    isamValues := [(GKey.X 0, GVal.pose Pose.id),
                   (GKey.X 1, GVal.pose (poseAt 10 0 0))] }

def cex5First : Proc (GMState × List Factor × List Event) :=
  find_overlapping_submaps cex5Params sampleOracles cex5Solver 0 cex5State

/-- The factors added by the first call. -/
def cex5NewFactors1 : List Factor :=
  match cex5First with
  | .ok (_, nf, _) => nf
  | .exited _ => [Factor.gicp (GKey.X 0) (GKey.X 0)]

/-- The state after the first call. -/
def cex5State1 : GMState :=
  match cex5First with
  | .ok (st, _, _) => st
  | .exited _ => GMState.empty

/-- The factors added by the second, back-to-back call. -/
def cex5NewFactors2 : List Factor :=
  match find_overlapping_submaps cex5Params sampleOracles cex5Solver 0 cex5State1 with
  | .ok (_, nf, _) => nf
  | .exited _ => []

/-- A load input whose graph deserialization throws
`boost::archive::archive_exception` (no submaps, values fine). -/
def cex8Input : LoadInput :=
  { header := some (0, 0, 0)
    matching_lines := []
    submapLoad := fun _ => none
    graphDeser := Except.error DeserError.archive
    valuesDeser := Except.ok [] }

/-- A load input whose graph deserialization throws a non-archive
`std::exception`. -/
def w8Input : LoadInput :=
  { header := some (0, 0, 0)
    matching_lines := []
    submapLoad := fun _ => none
    graphDeser := Except.error DeserError.other
    valuesDeser := Except.ok [] }

/-- Projection used to observe whether a completed load ran the repair
pass. -/
def loadRecoverRan : Proc (Option LoadResult) → Option Bool
  | .ok (some r) => some r.recoverRan
  | _ => none

/-- Projection observing the factor graph handed to a completed load's
final solver update. -/
def loadFinalGraph : Proc (Option LoadResult) → Option (List Factor)
  | .ok (some r) => some r.finalGraph
  | _ => none

/-- Projection observing the pending member `new_factors` buffer after a
completed load. -/
def loadPendingFactors : Proc (Option LoadResult) → Option (List Factor)
  | .ok (some r) => some r.state.pendingFactors
  | _ => none

/-- One-submap state with the solver estimate matching the stored pose. -/
def w7State : GMState :=
  { GMState.empty with
    submaps := [{ SubMapM.default with merged_keyframe := cex2Cloud }]
    subsampled_submaps := [cex2Cloud]
    isamValues := [(GKey.X 0, GVal.pose Pose.id)] }

/-- Projection observing the submap list of a completed state-and-events
operation. -/
def procSubmaps : Proc (GMState × List Event) → Option (List SubMapM)
  | .ok (st, _) => some st.submaps
  | .exited _ => none

/-- Subsampled clouds paired with the two-submap C3 witness. -/
def w3Clouds : List Cloud := [⟨[], false⟩, ⟨[], false⟩]

/-! Theorems settling the claims. -/

/-- C10: when the submap list is empty, `find_overlapping_submaps` returns
immediately for every `min_overlap`: no smoother update, no new factors,
no callbacks, and the state (graph, values, submap lists, pending
buffers) is unchanged. -/
theorem find_overlapping_submaps_empty_noop (p : Params) (o : MapOracles)
    (so : SolverOracle) (minOverlap : ℚ) (st : GMState)
    (h : st.submaps = []) :
    find_overlapping_submaps p o so minOverlap st = Proc.ok (st, [], []) := by
  simp [find_overlapping_submaps, h]

theorem find_overlapping_submaps_empty_noop_witness :
    GMState.empty.submaps = [] ∧
      find_overlapping_submaps sampleParams sampleOracles sampleSolver 0 GMState.empty =
        Proc.ok (GMState.empty, [], []) :=
  ⟨rfl, find_overlapping_submaps_empty_noop sampleParams sampleOracles sampleSolver 0
    GMState.empty rfl⟩

/-- C1 counterexample: with the solver raising an indeterminate linear
system at `V(3)` on a non-empty back end, `optimize` terminates the whole
process with exit status 1 (the `exit(1)` at line 496) instead of
rewriting the key, rebuilding the solver with a damping factor and
retrying; no repaired state is ever returned. -/
theorem optimize_indeterminate_terminates :
    optimize indetSolver oneValState = Proc.exited 1 := rfl

/-- C1 (amended): when the incremental smoother update raises an
indeterminate-linear-system exception, `update_isam2` logs and calls
`exit(1)`; the nearby-key rewrite and the damping-and-retry rebuild below
it are unreachable, so both direct updates and `optimize` on a non-empty
back end end the process instead of repairing the graph.  Other
exceptions are still swallowed. -/
theorem update_isam2_indeterminate_exits (so : SolverOracle) (st : GMState)
    (nf : List Factor) (nv : List (GKey × GVal)) (k : GKey)
    (h : so.outcome = SolverOutcome.indeterminate k) :
    update_isam2 so st nf nv = Proc.exited 1 ∧
      (st.isamValues.isEmpty = false → optimize so st = Proc.exited 1) := by
  constructor
  · simp [update_isam2, h]
  · intro hne
    simp [optimize, hne, update_isam2, h]

theorem update_isam2_indeterminate_exits_witness :
    indetSolver.outcome = SolverOutcome.indeterminate (GKey.V 3) ∧
      (update_isam2 indetSolver oneValState [] [] = Proc.exited 1 ∧
        (oneValState.isamValues.isEmpty = false →
          optimize indetSolver oneValState = Proc.exited 1)) :=
  ⟨rfl, update_isam2_indeterminate_exits indetSolver oneValState [] [] (GKey.V 3) rfl⟩

/-- Subsampling is enabled in the C2 configuration. -/
theorem cex2_rate_not_gt : ¬(cex2Params.randomsampling_rate > 99/100) := by
  norm_num [cex2Params, sampleParams]

/-- The C2 configuration takes the CPU path. -/
theorem cex2_not_gpu : ¬((cex2Params.cuda_built && cex2Params.enable_gpu) = true) := by
  simp [cex2Params, sampleParams]

/-- Every voxel map built by one `build_voxelmaps` run has the cloud that
was inserted into it as source. -/
theorem build_voxelmaps_source (levels : Nat) (scaling base : ℚ) (src : Cloud)
    (g : Bool) : ∀ vm ∈ build_voxelmaps levels scaling base src g, vm.source = src := by
  intro vm hvm
  simp only [build_voxelmaps, List.mem_map] at hvm
  obtain ⟨i, _, hvm2⟩ := hvm
  subst hvm2
  rfl

/-- C2 counterexample: with subsampling enabled (rate 1/2) on the CPU
path, the voxel maps — including the coarsest one used for overlap
checks — are built from the subsampled copy (here a single point), not
from the full two-point merged keyframe, contradicting the claim. -/
theorem insert_submap_voxelize_cpu_counterexample :
    ((insert_submap_voxelize cex2Params sampleOracles cex2Submap).1.voxelmaps.getLastD
        VoxelMap.default).source = ⟨[⟨0, 0, 0, 1⟩], false⟩ ∧
      (insert_submap_voxelize cex2Params sampleOracles cex2Submap).1.merged_keyframe =
        cex2Cloud ∧
      (⟨[⟨0, 0, 0, 1⟩], false⟩ : Cloud) ≠ cex2Cloud := by
  refine ⟨?_, ?_, ?_⟩
  · show ((insert_submap_voxelize cex2Params sampleOracles cex2Submap).1.voxelmaps.getLastD
        VoxelMap.default).source = ⟨[⟨0, 0, 0, 1⟩], false⟩
    simp only [insert_submap_voxelize]
    rw [if_neg cex2_not_gpu, if_neg cex2_rate_not_gt]
    rfl
  · simp only [insert_submap_voxelize]
    rw [if_neg cex2_not_gpu]
    rfl
  · intro hEq
    have hlen := congrArg (fun c : Cloud => c.points.length) hEq
    simp [cex2Cloud] at hlen

/-- C2 (amended): when subsampling is enabled, the subsampled copy of the
merged keyframe is retained as the source cloud for registration factors;
the voxel maps (including the coarsest) are built from the full merged
cloud on the GPU path, but from the subsampled copy on the CPU path. -/
theorem insert_submap_voxelize_source_clouds (p : Params) (o : MapOracles)
    (sm : SubMapM) (h : ¬p.randomsampling_rate > 99/100) :
    (insert_submap_voxelize p o sm).2 =
        (if p.cuda_built && p.enable_gpu then (o.randomSample sm.merged_keyframe).cloneGpu
         else o.randomSample sm.merged_keyframe) ∧
      ∀ vm ∈ (insert_submap_voxelize p o sm).1.voxelmaps,
        vm.source = (if p.cuda_built && p.enable_gpu
          then (insert_submap_voxelize p o sm).1.merged_keyframe
          else o.randomSample sm.merged_keyframe) := by
  by_cases hg : (p.cuda_built && p.enable_gpu) = true
  · constructor
    · rw [if_pos hg]
      simp only [insert_submap_voxelize]
      rw [if_pos hg, if_neg h, if_neg h]
    · intro vm hvm
      rw [if_pos hg]
      simp only [insert_submap_voxelize] at hvm ⊢
      rw [if_pos hg] at hvm ⊢
      exact build_voxelmaps_source _ _ _ _ _ vm hvm
  · constructor
    · rw [if_neg hg]
      simp only [insert_submap_voxelize]
      rw [if_neg hg, if_neg h]
    · intro vm hvm
      rw [if_neg hg]
      simp only [insert_submap_voxelize] at hvm
      rw [if_neg hg] at hvm
      have := build_voxelmaps_source p.submap_voxelmap_levels
        p.submap_voxelmap_scaling_factor (base_resolution p o sm.merged_keyframe)
        (if p.randomsampling_rate > 99/100 then sm.merged_keyframe
         else o.randomSample sm.merged_keyframe) false vm hvm
      rwa [if_neg h] at this

theorem insert_submap_voxelize_source_clouds_witness :
    ¬(cex2Params.randomsampling_rate > 99/100) ∧
      ((insert_submap_voxelize cex2Params sampleOracles cex2Submap).2 =
          (if cex2Params.cuda_built && cex2Params.enable_gpu then
            (sampleOracles.randomSample cex2Submap.merged_keyframe).cloneGpu
           else sampleOracles.randomSample cex2Submap.merged_keyframe) ∧
        ∀ vm ∈ (insert_submap_voxelize cex2Params sampleOracles cex2Submap).1.voxelmaps,
          vm.source = (if cex2Params.cuda_built && cex2Params.enable_gpu
            then (insert_submap_voxelize cex2Params sampleOracles cex2Submap).1.merged_keyframe
            else sampleOracles.randomSample cex2Submap.merged_keyframe)) :=
  ⟨cex2_rate_not_gt, insert_submap_voxelize_source_clouds cex2Params sampleOracles
    cex2Submap cex2_rate_not_gt⟩

/-- Membership in a conditional singleton list forces equality. -/
theorem mem_ite_nil_eq {α : Type} {c : Prop} [Decidable c] {a f : α}
    (h : f ∈ if c then [a] else []) : f = a := by
  split at h
  · simpa using h
  · simp at h

/-- No factor the per-submap repair loop emits is a damping factor. -/
theorem recover_submap_patch_factors_no_damping (submaps : List SubMapM)
    (graph : List Factor) (imu : Bool) (i : Nat) :
    ∀ f ∈ recover_submap_patch_factors submaps graph imu i,
      f.isLinearDamping = false := by
  intro f hf
  simp only [recover_submap_patch_factors] at hf
  rcases List.mem_append.mp hf with h | h
  · rw [mem_ite_nil_eq h]; rfl
  · cases imu with
    | false => simp at h
    | true =>
      simp only [if_pos rfl] at h
      rcases List.mem_append.mp h with h2 | h2
      · by_cases hi : i ≠ 0
        · rw [if_pos hi] at h2
          rcases List.mem_append.mp h2 with h3 | h3
          · rcases List.mem_append.mp h3 with h4 | h4
            · rcases List.mem_append.mp h4 with h5 | h5
              · rw [mem_ite_nil_eq h5]; rfl
              · rw [mem_ite_nil_eq h5]; rfl
            · rw [mem_ite_nil_eq h4]; rfl
          · rw [mem_ite_nil_eq h3]; rfl
        · rw [if_neg hi] at h2
          simp at h2
      · rcases List.mem_append.mp h2 with h3 | h3
        · rcases List.mem_append.mp h3 with h4 | h4
          · rw [mem_ite_nil_eq h4]; rfl
          · rw [mem_ite_nil_eq h4]; rfl
        · rw [mem_ite_nil_eq h3]; rfl

/-- C9 counterexample: `recover_graph` on an input graph with no damping
prior on `X(0)` (here the empty graph and values) returns an empty patch
pair — the claim that the returned `(patch_factors, patch_values)`
contains the `X(0)` damping factor is false — while the damping factor is
appended to the member `new_factors` buffer instead. -/
theorem recover_graph_patch_counterexample :
    x0_prior_exists [] = false ∧
      (recover_graph sampleParams [] [] []).1 = ([], []) ∧
      (recover_graph sampleParams [] [] []).2 =
        [Factor.linearDamping (GKey.X 0) 6 sampleParams.init_pose_damping_scale] :=
  ⟨rfl, rfl, rfl⟩

/-- C9 (amended): when the input graph has no unary `LinearDampingFactor`
on `X(0)`, `recover_graph` appends a 6-DoF damping factor at scale
`init_pose_damping_scale` to the back end's member `new_factors` buffer
(merged into the next `insert_submap` update), not to the returned
`(patch_factors, patch_values)` patch, which never contains a damping
factor. -/
theorem recover_graph_damping_to_pending (p : Params) (submaps : List SubMapM)
    (graph : List Factor) (values : List (GKey × GVal))
    (h : x0_prior_exists graph = false) :
    (recover_graph p submaps graph values).2 =
        [Factor.linearDamping (GKey.X 0) 6 p.init_pose_damping_scale] ∧
      ∀ f ∈ (recover_graph p submaps graph values).1.1,
        f.isLinearDamping = false := by
  constructor
  · simp [recover_graph, h]
  · intro f hf
    simp only [recover_graph, List.mem_flatMap, List.mem_range] at hf
    obtain ⟨i, _, hmem⟩ := hf
    exact recover_submap_patch_factors_no_damping submaps graph _ i f hmem

theorem recover_graph_damping_to_pending_witness :
    x0_prior_exists [] = false ∧
      ((recover_graph sampleParams [] [] []).2 =
          [Factor.linearDamping (GKey.X 0) 6 sampleParams.init_pose_damping_scale] ∧
        ∀ f ∈ (recover_graph sampleParams [] [] []).1.1,
          f.isLinearDamping = false) :=
  ⟨rfl, recover_graph_damping_to_pending sampleParams [] [] [] rfl⟩

/-- C8 counterexample: a load whose `graph.bin` deserialization throws
`boost::archive::archive_exception` completes and returns `true`, but
`needs_recover` is never set and no repair pass runs — the archive
exception is caught by the first handler, which only logs — contradicting
the claim that every deserialization exception schedules recovery. -/
theorem load_archive_exception_counterexample :
    cex8Input.graphDeser = Except.error DeserError.archive ∧
      loadRecoverRan (load sampleParams sampleOracles sampleSolver GMState.empty
        cex8Input) = some false :=
  ⟨rfl, rfl⟩

/-- C8 (amended): when deserializing `graph.bin` or `values.bin` throws an
exception other than `boost::archive::archive_exception`, `needs_recover`
is set, `recover_graph` runs, its factor/value patch is folded into the
final solver update, its `X(0)` damping repair lands in the member
pending buffer, and the load still completes and returns `true`.
Archive exceptions are only logged and schedule no recovery. -/
theorem load_deser_failure_recovers (p : Params) (o : MapOracles)
    (so : SolverOracle) (st : GMState) (input : LoadInput) (n a m : Nat)
    (ss : List SubMapM) (cs : List Cloud) (r0 : ISAM2Result)
    (hh : input.header = some (n, a, m))
    (hs : loadSubmaps p o input.submapLoad n = some (ss, cs))
    (hg : input.graphDeser = Except.error DeserError.other ∨
          input.valuesDeser = Except.error DeserError.other)
    (hso : so.outcome = SolverOutcome.success r0) :
    loadRecoverRan (load p o so st input) = some true ∧
      loadFinalGraph (load p o so st input) = some
        (((deser_graph input.graphDeser).1 ++ (recreate_matching_factors p ss cs
            input.matching_lines).map some).filterMap id ++
          (recover_graph p ss
            (((deser_graph input.graphDeser).1 ++ (recreate_matching_factors p ss cs
              input.matching_lines).map some).filterMap id)
            (deser_values input.valuesDeser).1).1.1) ∧
      loadPendingFactors (load p o so st input) = some
        (st.pendingFactors ++
          (recover_graph p ss
            (((deser_graph input.graphDeser).1 ++ (recreate_matching_factors p ss cs
              input.matching_lines).map some).filterMap id)
            (deser_values input.valuesDeser).1).2) := by
  have hneeds : ((deser_graph input.graphDeser).2 || (deser_values input.valuesDeser).2
      || decide ((((deser_graph input.graphDeser).1 ++ (recreate_matching_factors p ss cs
        input.matching_lines).map some).filterMap id).length ≠
          ((deser_graph input.graphDeser).1 ++ (recreate_matching_factors p ss cs
            input.matching_lines).map some).length)) = true := by
    rcases hg with h | h
    · rw [h]; rfl
    · rw [h]; simp [deser_values]
  refine ⟨?_, ?_, ?_⟩ <;>
    simp only [load, hh, hs, update_isam2, hso, hneeds, if_true, loadRecoverRan,
      loadFinalGraph, loadPendingFactors]

theorem load_deser_failure_recovers_witness :
    w8Input.header = some (0, 0, 0) ∧
      loadSubmaps sampleParams sampleOracles w8Input.submapLoad 0 = some ([], []) ∧
      (w8Input.graphDeser = Except.error DeserError.other ∨
        w8Input.valuesDeser = Except.error DeserError.other) ∧
      sampleSolver.outcome = SolverOutcome.success ⟨1⟩ ∧
      (loadRecoverRan (load sampleParams sampleOracles sampleSolver GMState.empty
          w8Input) = some true ∧
        loadFinalGraph (load sampleParams sampleOracles sampleSolver GMState.empty
            w8Input) = some
          (((deser_graph w8Input.graphDeser).1 ++ (recreate_matching_factors sampleParams
              [] [] w8Input.matching_lines).map some).filterMap id ++
            (recover_graph sampleParams []
              (((deser_graph w8Input.graphDeser).1 ++ (recreate_matching_factors
                sampleParams [] [] w8Input.matching_lines).map some).filterMap id)
              (deser_values w8Input.valuesDeser).1).1.1) ∧
        loadPendingFactors (load sampleParams sampleOracles sampleSolver GMState.empty
            w8Input) = some
          (GMState.empty.pendingFactors ++
            (recover_graph sampleParams []
              (((deser_graph w8Input.graphDeser).1 ++ (recreate_matching_factors
                sampleParams [] [] w8Input.matching_lines).map some).filterMap id)
              (deser_values w8Input.valuesDeser).1).2)) :=
  ⟨rfl, rfl, Or.inl rfl, rfl,
    load_deser_failure_recovers sampleParams sampleOracles sampleSolver GMState.empty
      w8Input 0 0 0 [] [] ⟨1⟩ rfl rfl (Or.inl rfl) rfl⟩

/-- C3: for every insertion with `current >= 1`, when the predecessor
overlap left by the loop of `create_matching_cost_factors` — the overlap
computed at `j = current - 1`, or the initial `0.0` when the predecessor
was skipped by the distance gate — is below
`max(0.25, min_implicit_loop_overlap)`, the emitted factors additionally
contain a `BetweenFactor` between `X(last)` and `X(current)` at their
current relative pose with isotropic precision 1e6 on 6 DoF. -/
theorem matching_cost_safety_net (p : Params) (o : MapOracles)
    (submaps : List SubMapM) (subsampled : List Cloud) (current : Nat)
    (h1 : 1 ≤ current)
    (h2 : previous_overlap_value p o submaps subsampled current <
          max (1/4) p.min_implicit_loop_overlap) :
    Factor.betweenPose (GKey.X (current - 1)) (GKey.X current)
        ((Pose.isoInv (submaps.getD (current - 1) SubMapM.default).T_world_origin).comp
          (submaps.getD current SubMapM.default).T_world_origin)
        (NoiseModel.isotropicPrecision 6 1000000)
      ∈ create_matching_cost_factors p o submaps subsampled current := by
  have hc : ¬(current = 0) := by omega
  have h2' : ((List.range current).foldl
      (matching_cost_step p o submaps subsampled current) ([], 0)).2 <
        max (1/4) p.min_implicit_loop_overlap := h2
  simp only [create_matching_cost_factors, hc, if_false]
  rw [if_pos h2']
  exact List.mem_append_right _ (List.mem_singleton.mpr rfl)

/-- The C3 witness predecessor is skipped by the distance gate, so its
`previous_overlap` stays at 0, below the 1/4 threshold. -/
theorem w3_prev_overlap_lt :
    previous_overlap_value sampleParams sampleOracles w3Submaps w3Clouds 1 <
      max (1/4) sampleParams.min_implicit_loop_overlap := by
  have hz : previous_overlap_value sampleParams sampleOracles w3Submaps w3Clouds 1 = 0 := by
    have hgate : ((w3Submaps.getD 0 SubMapM.default).T_world_origin.trans.sub
        (w3Submaps.getLastD SubMapM.default).T_world_origin.trans).sqnorm >
          sampleParams.max_implicit_loop_distance ^ 2 := by
      norm_num [w3Submaps, sampleParams, SubMapM.default, poseAt, Pose.id, Vec3.zero,
        Vec3.sub, Vec3.sqnorm, Vec3.dot]
    simp only [previous_overlap_value, List.range_succ, List.range_zero,
      List.nil_append, List.foldl_cons, List.foldl_nil, matching_cost_step,
      hgate, if_pos]
  rw [hz]
  exact lt_max_of_lt_left (by norm_num)

theorem matching_cost_safety_net_witness :
    1 ≤ 1 ∧
      previous_overlap_value sampleParams sampleOracles w3Submaps w3Clouds 1 <
        max (1/4) sampleParams.min_implicit_loop_overlap ∧
      Factor.betweenPose (GKey.X 0) (GKey.X 1)
          ((Pose.isoInv (w3Submaps.getD 0 SubMapM.default).T_world_origin).comp
            (w3Submaps.getD 1 SubMapM.default).T_world_origin)
          (NoiseModel.isotropicPrecision 6 1000000)
        ∈ create_matching_cost_factors sampleParams sampleOracles w3Submaps w3Clouds 1 :=
  ⟨le_refl 1, w3_prev_overlap_lt,
    matching_cost_safety_net sampleParams sampleOracles w3Submaps w3Clouds 1
      (le_refl 1) w3_prev_overlap_lt⟩

/-- C4: with IMU enabled and `current >= 1`, when fewer than 2 IMU samples
were integrated between the previous submap's right endpoint stamp and
the current submap's left endpoint stamp, the IMU block of
`insert_submap` adds the zero-velocity `BetweenFactor`
`V(last*2+1) -> V(current*2)` with value zero and isotropic precision 1.0
on 3 DoF and no `ImuFactor`; otherwise it adds exactly one `ImuFactor`
over `E(last*2+1), V(last*2+1), E(current*2), V(current*2), B(last*2+1)`
with the preintegrated measurement. -/
theorem imu_gap_fallback (p : Params) (o : MapOracles) (submaps : List SubMapM)
    (current : Nat) (sm : SubMapM) (himu : p.enable_imu = true)
    (hc : 1 ≤ current) :
    ((integrate_between o submaps current sm).1 < 2 →
      Factor.betweenVel (GKey.V ((current - 1) * 2 + 1)) (GKey.V (current * 2))
          Vec3.zero (NoiseModel.isotropicPrecision 3 1)
        ∈ (imu_chain p o submaps current sm).1 ∧
      ∀ f ∈ (imu_chain p o submaps current sm).1, f.isImuFactor = false) ∧
    (2 ≤ (integrate_between o submaps current sm).1 →
      ((imu_chain p o submaps current sm).1.filter Factor.isImuFactor) =
        [Factor.imuFactor (GKey.E ((current - 1) * 2 + 1))
          (GKey.V ((current - 1) * 2 + 1)) (GKey.E (current * 2))
          (GKey.V (current * 2)) (GKey.B ((current - 1) * 2 + 1))
          (integrate_between o submaps current sm).2]) := by
  have hpos : 0 < current := hc
  have hne : ¬(current = 0) := by omega
  constructor
  · intro hlt
    constructor
    · simp [imu_chain, himu, hne, hpos, hlt]
    · intro f hf
      simp [imu_chain, himu, hne, hpos, hlt] at hf
      rcases hf with rfl | rfl | rfl | rfl | rfl | rfl | rfl | rfl <;> rfl
  · intro hge
    have hnlt : ¬(integrate_between o submaps current sm).1 < 2 := by omega
    simp [imu_chain, himu, hne, hpos, hnlt, List.filter, Factor.isImuFactor]

theorem imu_gap_fallback_witness :
    sampleParams.enable_imu = true ∧ 1 ≤ 1 ∧
      (((integrate_between sampleOracles [SubMapM.default] 1 SubMapM.default).1 < 2 →
        Factor.betweenVel (GKey.V (0 * 2 + 1)) (GKey.V (1 * 2)) Vec3.zero
            (NoiseModel.isotropicPrecision 3 1)
          ∈ (imu_chain sampleParams sampleOracles [SubMapM.default] 1 SubMapM.default).1 ∧
        ∀ f ∈ (imu_chain sampleParams sampleOracles [SubMapM.default] 1 SubMapM.default).1,
          f.isImuFactor = false) ∧
      (2 ≤ (integrate_between sampleOracles [SubMapM.default] 1 SubMapM.default).1 →
        ((imu_chain sampleParams sampleOracles [SubMapM.default] 1
            SubMapM.default).1.filter Factor.isImuFactor) =
          [Factor.imuFactor (GKey.E (0 * 2 + 1)) (GKey.V (0 * 2 + 1)) (GKey.E (1 * 2))
            (GKey.V (1 * 2)) (GKey.B (0 * 2 + 1))
            (integrate_between sampleOracles [SubMapM.default] 1 SubMapM.default).2])) :=
  ⟨rfl, le_refl 1,
    imu_gap_fallback sampleParams sampleOracles [SubMapM.default] 1 SubMapM.default
      rfl (le_refl 1)⟩

/-- The concatenated export has one entry per merged-keyframe point. -/
theorem export_points_length (ss : List SubMapM) :
    (export_points ss).length =
      (ss.map fun sm => sm.merged_keyframe.points.length).sum := by
  induction ss with
  | nil => rfl
  | cons a t ih =>
    simp only [export_points, List.flatMap_cons, List.length_append,
      List.length_map, List.map_cons, List.sum_cons] at ih ⊢
    omega

/-- Appending a submap appends its transformed keyframe to the export. -/
theorem export_points_append_single (ss : List SubMapM) (s : SubMapM) :
    export_points (ss ++ [s]) =
      export_points ss ++ s.merged_keyframe.points.map s.T_world_origin.actHom := by
  simp [export_points]

/-- Writing back estimates equal to the current poses leaves the submap
list unchanged. -/
theorem update_submaps_fixpoint (est : Nat → Pose) (ss : List SubMapM)
    (h : ∀ (i : Nat) (hi : i < ss.length), est i = ss[i].T_world_origin) :
    update_submaps est ss = ss := by
  apply List.ext_getElem
  · simp [update_submaps]
  · intro i h1 h2
    simp only [update_submaps, List.getElem_mapIdx]
    rw [h i h2]

/-- C7: `export_points` returns one entry per merged-keyframe point (its
size is the sum of the submaps' keyframe sizes), concatenates, in
insertion order, each submap's points transformed by its current
`T_world_origin`, and the submap list — hence the export — is invariant
under an intervening no-op `optimize()` call (a successful update whose
estimates equal the current poses). -/
theorem export_points_spec (so : SolverOracle) (st : GMState) (r0 : ISAM2Result)
    (hso : so.outcome = SolverOutcome.success r0)
    (hest : ∀ (i : Nat) (hi : i < st.submaps.length),
      so.estimates i = st.submaps[i].T_world_origin) :
    (export_points st.submaps).length =
        (st.submaps.map fun sm => sm.merged_keyframe.points.length).sum ∧
      (∀ (ss : List SubMapM) (s : SubMapM),
        export_points (ss ++ [s]) =
          export_points ss ++ s.merged_keyframe.points.map s.T_world_origin.actHom) ∧
      procSubmaps (optimize so st) = some st.submaps ∧
      (procSubmaps (optimize so st)).map export_points =
        some (export_points st.submaps) := by
  have hsub : update_submaps so.estimates st.submaps = st.submaps :=
    update_submaps_fixpoint _ _ hest
  have hopt : procSubmaps (optimize so st) = some st.submaps := by
    by_cases he : st.isamValues.isEmpty
    · simp [optimize, he, procSubmaps]
    · simp [optimize, he, update_isam2, hso, procSubmaps, hsub]
  refine ⟨export_points_length st.submaps, export_points_append_single, hopt, ?_⟩
  rw [hopt]
  rfl

theorem w7_est_fixpoint : ∀ (i : Nat) (hi : i < w7State.submaps.length),
    sampleSolver.estimates i = w7State.submaps[i].T_world_origin := by
  intro i hi
  simp only [w7State, GMState.empty, List.length_singleton] at hi
  have h0 : i = 0 := by omega
  subst h0
  rfl

theorem export_points_spec_witness :
    sampleSolver.outcome = SolverOutcome.success ⟨1⟩ ∧
      ((export_points w7State.submaps).length =
          (w7State.submaps.map fun sm => sm.merged_keyframe.points.length).sum ∧
        (∀ (ss : List SubMapM) (s : SubMapM),
          export_points (ss ++ [s]) =
            export_points ss ++ s.merged_keyframe.points.map s.T_world_origin.actHom) ∧
        procSubmaps (optimize sampleSolver w7State) = some w7State.submaps ∧
        (procSubmaps (optimize sampleSolver w7State)).map export_points =
          some (export_points w7State.submaps)) :=
  ⟨rfl, export_points_spec sampleSolver w7State ⟨1⟩ rfl w7_est_fixpoint⟩

/-- The keys of the values the IMU block inserts, independent of the
payloads. -/
theorem imu_chain_value_keys (p : Params) (o : MapOracles) (submaps : List SubMapM)
    (current : Nat) (sm : SubMapM) :
    ((imu_chain p o submaps current sm).2).map Prod.fst =
      (if p.enable_imu then
        (if 0 < current then
          [GKey.E (current * 2), GKey.V (current * 2), GKey.B (current * 2)] else []) ++
        [GKey.E (current * 2 + 1), GKey.V (current * 2 + 1), GKey.B (current * 2 + 1)]
       else []) := by
  by_cases himu : p.enable_imu = true
  · by_cases hcur : 0 < current
    · simp [imu_chain, himu, hcur]
    · simp [imu_chain, himu, hcur]
  · simp [imu_chain, himu]

/-- Shape of one successful `insert_submap` call: the solver gains exactly
the predicted-pose key and the IMU endpoint keys, the pending buffers are
reset, and the submap list grows by one. -/
theorem insert_submap_success_shape (p : Params) (o : MapOracles)
    (so : SolverOracle) (st : GMState) (sm : SubMapM) (r : ISAM2Result)
    (hso : so.outcome = SolverOutcome.success r)
    (hpend : st.pendingValues = []) :
    ∃ st2, insert_submap p o so st sm = Proc.ok (st2, r) ∧
      st2.isamValues.map Prod.fst =
        st.isamValues.map Prod.fst ++ inserted_value_keys p.enable_imu st.submaps.length ∧
      st2.pendingValues = [] ∧
      st2.submaps.length = st.submaps.length + 1 := by
  have hprepV : (insert_submap_prepare p o st sm).isamValues = st.isamValues := rfl
  have hprepPend : (insert_submap_prepare p o st sm).pendingValues.map Prod.fst =
      st.pendingValues.map Prod.fst ++
        inserted_value_keys p.enable_imu st.submaps.length := by
    simp only [insert_submap_prepare, insert_submap_push, List.map_append,
      List.map_cons, List.map_nil, imu_chain_value_keys, inserted_value_keys]
    simp
  have hprepLen : (insert_submap_prepare p o st sm).submaps.length =
      st.submaps.length + 1 := by
    simp [insert_submap_prepare, insert_submap_push]
  refine ⟨{ (insert_submap_prepare p o st sm) with
            isamFactors := (insert_submap_prepare p o st sm).isamFactors ++
              (insert_submap_prepare p o st sm).pendingFactors
            isamValues := (insert_submap_prepare p o st sm).isamValues ++
              (insert_submap_prepare p o st sm).pendingValues
            pendingFactors := []
            pendingValues := []
            submaps := update_submaps so.estimates
              (insert_submap_prepare p o st sm).submaps }, ?_, ?_, rfl, ?_⟩
  · simp only [insert_submap, update_isam2, hso]
  · simp only [List.map_append, hprepV, hprepPend, hpend, List.map_nil,
      List.nil_append]
  · simp only [update_submaps, List.length_mapIdx, hprepLen]

/-- Peel one insertion off the front of a key range. -/
theorem inserted_keys_range_succ_left (imu : Bool) (start : Nat) (n : Nat) :
    inserted_keys_range imu start (n + 1) =
      inserted_value_keys imu start ++ inserted_keys_range imu (start + 1) n := by
  induction n with
  | zero => simp [inserted_keys_range]
  | succ m ih =>
    have h1 : start + (m + 1) = start + 1 + m := by omega
    calc inserted_keys_range imu start (m + 1 + 1)
        = inserted_keys_range imu start (m + 1) ++
            inserted_value_keys imu (start + (m + 1)) := rfl
      _ = (inserted_value_keys imu start ++ inserted_keys_range imu (start + 1) m) ++
            inserted_value_keys imu (start + 1 + m) := by rw [ih, h1]
      _ = inserted_value_keys imu start ++ inserted_keys_range imu (start + 1) (m + 1) := by
            rw [List.append_assoc]
            rfl

/-- Keys accumulated by a whole successful insertion sequence. -/
theorem insert_submap_seq_keys (p : Params) (o : MapOracles)
    (steps : List (SubMapM × SolverOracle)) :
    ∀ st : GMState, (∀ s ∈ steps, ∃ r, s.2.outcome = SolverOutcome.success r) →
      st.pendingValues = [] →
      ∃ st2, insert_submap_seq p o st steps = Proc.ok st2 ∧
        st2.isamValues.map Prod.fst = st.isamValues.map Prod.fst ++
          inserted_keys_range p.enable_imu st.submaps.length steps.length ∧
        st2.pendingValues = [] ∧
        st2.submaps.length = st.submaps.length + steps.length := by
  induction steps with
  | nil =>
    intro st hsucc hpend
    exact ⟨st, rfl, by simp [inserted_keys_range], hpend, by simp⟩
  | cons step rest ih =>
    intro st hsucc hpend
    obtain ⟨r, hr⟩ := hsucc step (List.mem_cons_self _ _)
    obtain ⟨st1, h1, h2, h3, h4⟩ :=
      insert_submap_success_shape p o step.2 st step.1 r hr hpend
    obtain ⟨st2, g1, g2, g3, g4⟩ :=
      ih st1 (fun s hs => hsucc s (List.mem_cons_of_mem _ hs)) h3
    refine ⟨st2, ?_, ?_, g3, ?_⟩
    · simp [insert_submap_seq, h1, g1]
    · rw [g2, h2, h4, List.length_cons, inserted_keys_range_succ_left,
        List.append_assoc]
    · rw [g4, h4, List.length_cons]
      omega

/-- Membership in the keys of a single insertion. -/
theorem inserted_value_keys_mem (imu : Bool) (c : Nat) (k : GKey) :
    k ∈ inserted_value_keys imu c ↔
      (k = GKey.X c ∨ (imu = true ∧
        ((0 < c ∧ (k = GKey.E (c * 2) ∨ k = GKey.V (c * 2) ∨ k = GKey.B (c * 2))) ∨
         (k = GKey.E (c * 2 + 1) ∨ k = GKey.V (c * 2 + 1) ∨ k = GKey.B (c * 2 + 1))))) := by
  by_cases himu : imu = true
  · by_cases hc : 0 < c
    · simp only [inserted_value_keys, himu, hc, if_true, if_pos]
      simp
      tauto
    · simp [inserted_value_keys, himu, hc]
  · simp [inserted_value_keys, himu]

/-- Membership characterization of the keys of `N` insertions from a
fresh back end. -/
theorem inserted_keys_range_mem (imu : Bool) (N : Nat) (k : GKey) :
    k ∈ inserted_keys_range imu 0 N ↔
      ((∃ i, i < N ∧ k = GKey.X i) ∨
        (imu = true ∧ ∃ m, 1 ≤ m ∧ m < 2 * N ∧
          (k = GKey.E m ∨ k = GKey.V m ∨ k = GKey.B m))) := by
  induction N with
  | zero => simp [inserted_keys_range]
  | succ n ih =>
    have hstep : inserted_keys_range imu 0 (n + 1) =
        inserted_keys_range imu 0 n ++ inserted_value_keys imu n := by
      simp [inserted_keys_range]
    rw [hstep, List.mem_append, ih, inserted_value_keys_mem]
    constructor
    · rintro ((⟨i, hi, rfl⟩ | ⟨himu, m, h1, h2, hk⟩) |
        (rfl | ⟨himu, (⟨hn, hk⟩ | hk)⟩))
      · exact Or.inl ⟨i, by omega, rfl⟩
      · exact Or.inr ⟨himu, m, h1, by omega, hk⟩
      · exact Or.inl ⟨n, by omega, rfl⟩
      · exact Or.inr ⟨himu, n * 2, by omega, by omega, by
          rcases hk with rfl | rfl | rfl
          · exact Or.inl rfl
          · exact Or.inr (Or.inl rfl)
          · exact Or.inr (Or.inr rfl)⟩
      · exact Or.inr ⟨himu, n * 2 + 1, by omega, by omega, hk⟩
    · rintro (⟨i, hi, rfl⟩ | ⟨himu, m, h1, h2, hk⟩)
      · by_cases hin : i < n
        · exact Or.inl (Or.inl ⟨i, hin, rfl⟩)
        · have : i = n := by omega
          subst this
          exact Or.inr (Or.inl rfl)
      · by_cases hm : m < 2 * n
        · exact Or.inl (Or.inr ⟨himu, m, h1, hm, hk⟩)
        · by_cases hm2 : m = n * 2
          · subst hm2
            refine Or.inr (Or.inr ⟨himu, Or.inl ⟨by omega, hk⟩⟩)
          · have : m = n * 2 + 1 := by omega
            subst this
            exact Or.inr (Or.inr ⟨himu, Or.inr hk⟩)

/-- C6: after any sequence of `N >= 1` successful submap insertions into a
fresh back end, the set of variables held by the solver is exactly
`{X(0), ..., X(N-1)}` plus, when IMU is enabled,
`{E(k), V(k), B(k) : 1 <= k < 2N}`; in particular `E(0)`, `V(0)` and
`B(0)` are never created. -/
theorem solver_variable_set (p : Params) (o : MapOracles)
    (steps : List (SubMapM × SolverOracle)) (N : Nat)
    (hN : steps.length = N) (hN1 : 1 ≤ N)
    (hsucc : ∀ s ∈ steps, ∃ r, s.2.outcome = SolverOutcome.success r) :
    ∃ st2, insert_submap_seq p o GMState.empty steps = Proc.ok st2 ∧
      (∀ k : GKey, k ∈ st2.isamValues.map Prod.fst ↔
        ((∃ i, i < N ∧ k = GKey.X i) ∨
          (p.enable_imu = true ∧ ∃ m, 1 ≤ m ∧ m < 2 * N ∧
            (k = GKey.E m ∨ k = GKey.V m ∨ k = GKey.B m)))) ∧
      GKey.E 0 ∉ st2.isamValues.map Prod.fst ∧
      GKey.V 0 ∉ st2.isamValues.map Prod.fst ∧
      GKey.B 0 ∉ st2.isamValues.map Prod.fst := by
  obtain ⟨st2, h1, h2, h3, h4⟩ :=
    insert_submap_seq_keys p o steps GMState.empty hsucc rfl
  subst hN
  have hmem : ∀ k : GKey, k ∈ st2.isamValues.map Prod.fst ↔
      ((∃ i, i < steps.length ∧ k = GKey.X i) ∨
        (p.enable_imu = true ∧ ∃ m, 1 ≤ m ∧ m < 2 * steps.length ∧
          (k = GKey.E m ∨ k = GKey.V m ∨ k = GKey.B m))) := by
    intro k
    rw [h2]
    simp only [GMState.empty, List.map_nil, List.nil_append]
    exact inserted_keys_range_mem p.enable_imu steps.length k
  refine ⟨st2, h1, hmem, ?_, ?_, ?_⟩
  · intro hk
    rcases (hmem _).mp hk with ⟨i, _, h⟩ | ⟨_, m, hm, _, h | h | h⟩ <;>
      first
        | exact GKey.noConfusion h
        | · injection h with h'
            omega
  · intro hk
    rcases (hmem _).mp hk with ⟨i, _, h⟩ | ⟨_, m, hm, _, h | h | h⟩ <;>
      first
        | exact GKey.noConfusion h
        | · injection h with h'
            omega
  · intro hk
    rcases (hmem _).mp hk with ⟨i, _, h⟩ | ⟨_, m, hm, _, h | h | h⟩ <;>
      first
        | exact GKey.noConfusion h
        | · injection h with h'
            omega

/-- The single witness step succeeds. -/
theorem w6_success : ∀ s ∈ ([(SubMapM.default, sampleSolver)] :
    List (SubMapM × SolverOracle)), ∃ r, s.2.outcome = SolverOutcome.success r := by
  intro s hs
  simp only [List.mem_singleton] at hs
  subst hs
  exact ⟨⟨1⟩, rfl⟩

theorem solver_variable_set_witness :
    ([(SubMapM.default, sampleSolver)] : List (SubMapM × SolverOracle)).length = 1 ∧
      1 ≤ 1 ∧
      (∃ st2, insert_submap_seq sampleParams sampleOracles GMState.empty
          [(SubMapM.default, sampleSolver)] = Proc.ok st2 ∧
        (∀ k : GKey, k ∈ st2.isamValues.map Prod.fst ↔
          ((∃ i, i < 1 ∧ k = GKey.X i) ∨
            (sampleParams.enable_imu = true ∧ ∃ m, 1 ≤ m ∧ m < 2 * 1 ∧
              (k = GKey.E m ∨ k = GKey.V m ∨ k = GKey.B m)))) ∧
        GKey.E 0 ∉ st2.isamValues.map Prod.fst ∧
        GKey.V 0 ∉ st2.isamValues.map Prod.fst ∧
        GKey.B 0 ∉ st2.isamValues.map Prod.fst) :=
  ⟨rfl, le_refl 1,
    solver_variable_set sampleParams sampleOracles [(SubMapM.default, sampleSolver)] 1
      rfl (le_refl 1) w6_success⟩

/-- Every factor emitted for a pair `(i, j)` has exactly the keys
`[X(i), X(j)]`. -/
theorem overlap_pair_factors_keys (p : Params) (o : MapOracles) (ss : List SubMapM)
    (cs : List Cloud) (minOv : ℚ) (ex : List (Nat × Nat)) (i j : Nat) :
    ∀ f ∈ overlap_pair_factors p o ss cs minOv ex i j,
      f.keys = [GKey.X i, GKey.X j] := by
  intro f hf
  simp only [overlap_pair_factors] at hf
  split_ifs at hf
  · exact absurd hf (List.not_mem_nil f)
  · exact absurd hf (List.not_mem_nil f)
  · exact absurd hf (List.not_mem_nil f)
  · simp only [List.mem_map] at hf
    obtain ⟨vm, _, h⟩ := hf
    subst h
    rfl
  · simp only [List.mem_map] at hf
    obtain ⟨vm, _, h⟩ := hf
    subst h
    rfl

/-- A factor whose two keys are `X(i)`, `X(j)` makes the dedup scan record
the pair `(i, j)`. -/
theorem pair_recorded_of_mem (factors : List Factor) (f : Factor) (i j : Nat)
    (hf : f ∈ factors) (hk : f.keys = [GKey.X i, GKey.X j]) :
    (i, j) ∈ overlap_pairs_existing factors := by
  unfold overlap_pairs_existing
  apply List.mem_filterMap.mpr
  refine ⟨f, hf, ?_⟩
  rw [hk]
  simp [GKey.chr, GKey.index]

/-- The dedup scan distributes over factor-list concatenation. -/
theorem overlap_pairs_existing_append (A B : List Factor) :
    overlap_pairs_existing (A ++ B) =
      overlap_pairs_existing A ++ overlap_pairs_existing B := by
  simp [overlap_pairs_existing, List.filterMap_append]

/-- After one scan has added its factors, re-running the pair evaluation
with the grown factor set yields nothing for any pair. -/
theorem overlap_pair_factors_second_empty (p : Params) (o : MapOracles)
    (ss : List SubMapM) (cs : List Cloud) (minOv : ℚ) (A : List Factor)
    (i j : Nat) (hi : i < ss.length) (hj : j < ss.length) (hij : i < j) :
    overlap_pair_factors p o ss cs minOv
      (overlap_pairs_existing (A ++ find_overlapping_new_factors p o ss cs minOv
        (overlap_pairs_existing A))) i j = [] := by
  set nf1 := find_overlapping_new_factors p o ss cs minOv (overlap_pairs_existing A)
    with hnf1
  by_cases hmem : (i, j) ∈ overlap_pairs_existing (A ++ nf1)
  · unfold overlap_pair_factors
    rw [if_pos hmem]
  · have hmemA : (i, j) ∉ overlap_pairs_existing A := fun h =>
      hmem (by rw [overlap_pairs_existing_append]; exact List.mem_append_left _ h)
    have heq : overlap_pair_factors p o ss cs minOv
        (overlap_pairs_existing (A ++ nf1)) i j =
          overlap_pair_factors p o ss cs minOv (overlap_pairs_existing A) i j := by
      unfold overlap_pair_factors
      rw [if_neg hmem, if_neg hmemA]
    rw [heq]
    rcases hL : overlap_pair_factors p o ss cs minOv (overlap_pairs_existing A) i j
      with _ | ⟨f, t⟩
    · rfl
    · exfalso
      have hfmem : f ∈ overlap_pair_factors p o ss cs minOv
          (overlap_pairs_existing A) i j := by
        rw [hL]
        exact List.mem_cons_self _ _
      have hin_nf1 : f ∈ nf1 := by
        rw [hnf1]
        unfold find_overlapping_new_factors
        refine List.mem_flatMap.mpr ⟨i, List.mem_range.mpr hi, ?_⟩
        refine List.mem_flatMap.mpr ⟨j, List.mem_range.mpr hj, ?_⟩
        rw [if_pos hij]
        exact hfmem
      have hkeys := overlap_pair_factors_keys p o ss cs minOv
        (overlap_pairs_existing A) i j f hfmem
      have hrec : (i, j) ∈ overlap_pairs_existing nf1 :=
        pair_recorded_of_mem nf1 f i j hin_nf1 hkeys
      exact hmem (by
        rw [overlap_pairs_existing_append]
        exact List.mem_append_right _ hrec)

/-- A second scan over the factor set grown by a first scan collects no
new factors at all. -/
theorem second_scan_empty (p : Params) (o : MapOracles) (ss : List SubMapM)
    (cs : List Cloud) (minOv : ℚ) (A : List Factor) :
    find_overlapping_new_factors p o ss cs minOv
      (overlap_pairs_existing (A ++ find_overlapping_new_factors p o ss cs minOv
        (overlap_pairs_existing A))) = [] := by
  rw [find_overlapping_new_factors]
  apply List.flatMap_eq_nil_iff.mpr
  intro i hi
  apply List.flatMap_eq_nil_iff.mpr
  intro j hj
  by_cases hij : i < j
  · rw [if_pos hij]
    exact overlap_pair_factors_second_empty p o ss cs minOv A i j
      (List.mem_range.mp hi) (List.mem_range.mp hj) hij
  · rw [if_neg hij]

/-- C5 (amended): when the smoother update between the two calls succeeds
and leaves every submap pose unchanged, two consecutive
`find_overlapping_submaps` calls with no intervening operations result in
the second call adding zero new factors: every pair the first call
connected (or that was already connected) is recorded by the scan over
2-key `X`-`X` factors and skipped, and with unchanged poses no gate
re-opens. -/
theorem find_overlapping_second_call_adds_nothing (p : Params) (o : MapOracles)
    (so : SolverOracle) (minOv : ℚ) (st : GMState) (r0 : ISAM2Result)
    (hso : so.outcome = SolverOutcome.success r0)
    (hest : ∀ (i : Nat) (hi : i < st.submaps.length),
      so.estimates i = st.submaps[i].T_world_origin) :
    ∃ st1 nf1 evs1,
      find_overlapping_submaps p o so minOv st = Proc.ok (st1, nf1, evs1) ∧
        procNewFactors (find_overlapping_submaps p o so minOv st1) = some [] := by
  have hsub : update_submaps so.estimates st.submaps = st.submaps :=
    update_submaps_fixpoint _ _ hest
  by_cases he : st.submaps.isEmpty
  · refine ⟨st, [], [], ?_, ?_⟩
    · simp [find_overlapping_submaps, he]
    · simp [find_overlapping_submaps, he, procNewFactors]
  · refine ⟨{ st with
              isamFactors := st.isamFactors ++ find_overlapping_new_factors p o
                st.submaps st.subsampled_submaps minOv
                (overlap_pairs_existing st.isamFactors)
              isamValues := st.isamValues ++ []
              submaps := update_submaps so.estimates st.submaps },
            find_overlapping_new_factors p o st.submaps st.subsampled_submaps minOv
              (overlap_pairs_existing st.isamFactors),
            [Event.smootherUpdate, Event.smootherUpdateResult, Event.updateSubmaps],
            ?_, ?_⟩
    · simp only [find_overlapping_submaps, update_isam2, hso]
      rw [if_neg he]
    · rw [hsub]
      simp only [find_overlapping_submaps, update_isam2, hso]
      rw [if_neg he]
      simp only [procNewFactors]
      rw [second_scan_empty p o st.submaps st.subsampled_submaps minOv st.isamFactors]

theorem find_overlapping_second_call_adds_nothing_witness :
    sampleSolver.outcome = SolverOutcome.success ⟨1⟩ ∧
      (∃ st1 nf1 evs1,
        find_overlapping_submaps sampleParams sampleOracles sampleSolver 0 w7State =
          Proc.ok (st1, nf1, evs1) ∧
        procNewFactors (find_overlapping_submaps sampleParams sampleOracles
          sampleSolver 0 st1) = some []) :=
  ⟨rfl, find_overlapping_second_call_adds_nothing sampleParams sampleOracles
    sampleSolver 0 w7State ⟨1⟩ rfl w7_est_fixpoint⟩

/-- C5 counterexample: as stated — for every back-end state and every
`min_overlap` the second of two consecutive calls adds zero factors — the
claim fails: here the first call adds nothing (the only pair is beyond
the distance gate), the intervening smoother update moves submap 1 from
translation 10 to 1/2, and the second back-to-back call then adds one
VGICP factor for the now-eligible pair. -/
theorem find_overlapping_second_call_counterexample :
    cex5NewFactors1 = [] ∧ cex5NewFactors2.length = 1 := by
  constructor <;>
    norm_num [cex5NewFactors1, cex5NewFactors2, cex5State1, cex5First,
      find_overlapping_submaps, find_overlapping_new_factors, overlap_pair_factors,
      overlap_pairs_existing, update_isam2, update_submaps, cex5Params, cex5Solver,
      cex5State, sampleParams, sampleOracles, SubMapM.default, VoxelMap.default,
      poseAt, Pose.id, Pose.isoInv, Pose.comp, Mat3.id, Mat3.mul, Mat3.transpose,
      Mat3.mulVec, Vec3.dot, Vec3.sqnorm, Vec3.sub, Vec3.add, Vec3.neg, Vec3.smul,
      Vec3.zero, List.range_succ, GMState.empty]

end GlimMapping
